import Mathlib

/-
Verification of the object-model synchronization engine of the H-Series
Pendant firmware.  The C++ sources are shallowly embedded: the poll
scheduler (sequence counters and dirty bits), the message session
(composite alert staging and commit), the field-path dispatcher
(case-insensitive sorted table with binary search) and the object-model
store (sorted singly-linked collections of tools and spindles, fixed
axis array).  Machine integers are modelled as Nat/Int with explicit
truncation where the code narrows; linked-list pointer surgery is
modelled on Lean lists, with Option capturing a null dereference.
-/

/-! ### ReceivedDataEvent (PanelDue.cpp, enum ReceivedDataEvent) -/

/-- Symbolic update codes resolved by the field-path dispatcher,
transcribed from the `ReceivedDataEvent` enum of the source. -/
inductive ReceivedDataEvent where
  | rcvUnknown
  | rcvPushMessage
  | rcvPushResponse
  | rcvPushSeq
  | rcvPushBeepDuration
  | rcvPushBeepFrequency
  | rcvM20Dir
  | rcvM20Err
  | rcvM20Files
  | rcvM36Filament
  | rcvM36Filename
  | rcvM36GeneratedBy
  | rcvM36Height
  | rcvM36LastModified
  | rcvM36LayerHeight
  | rcvM36PrintTime
  | rcvM36SimulatedTime
  | rcvM36Size
  | rcvKey
  | rcvFlags
  | rcvResult
  | rcvOMKeyNoKey
  | rcvOMKeyBoards
  | rcvOMKeyDirectories
  | rcvOMKeyFans
  | rcvOMKeyHeat
  | rcvOMKeyInputs
  | rcvOMKeyJob
  | rcvOMKeyLimits
  | rcvOMKeyMove
  | rcvOMKeyNetwork
  | rcvOMKeyReply
  | rcvOMKeyScanner
  | rcvOMKeySensors
  | rcvOMKeySeqs
  | rcvOMKeySpindles
  | rcvOMKeyState
  | rcvOMKeyTools
  | rcvOMKeyVolumes
  | rcvLiveFansActualValue
  | rcvLiveHeatHeatersActive
  | rcvLiveHeatHeatersCurrent
  | rcvLiveHeatHeatersStandby
  | rcvLiveHeatHeatersState
  | rcvLiveJobFilePosition
  | rcvLiveJobTimesLeftFilament
  | rcvLiveJobTimesLeftFile
  | rcvLiveJobTimesLeftLayer
  | rcvMoveAxesHomed
  | rcvLiveMoveAxesMachinePosition
  | rcvLiveMoveAxesUserPosition
  | rcvLiveSensorsProbeValue
  | rcvLiveSeqsBoards
  | rcvLiveSeqsDirectories
  | rcvLiveSeqsFans
  | rcvLiveSeqsHeat
  | rcvLiveSeqsInputs
  | rcvLiveSeqsJob
  | rcvLiveSeqsMove
  | rcvLiveSeqsNetwork
  | rcvLiveSeqsReply
  | rcvLiveSeqsScanner
  | rcvLiveSeqsSensors
  | rcvLiveSeqsSpindles
  | rcvLiveSeqsState
  | rcvLiveSeqsTools
  | rcvLiveSeqsVolumes
  | rcvLiveSpindlesCurrent
  | rcvLiveStateCurrentTool
  | rcvLiveStateStatus
  | rcvLiveStateUptime
  | rcvBoardsFirmwareName
  | rcvHeatBedHeaters
  | rcvHeatChamberHeaters
  | rcvJobFileFilename
  | rcvJobFileSize
  | rcvMoveAxesBabystep
  | rcvMoveAxesLetter
  | rcvMoveAxesVisible
  | rcvMoveAxesWorkplaceOffsets
  | rcvMoveExtrudersFactor
  | rcvMoveKinematicsName
  | rcvMoveSpeedFactor
  | rcvMoveWorkplaceNumber
  | rcvNetworkName
  | rcvNetworkInterfacesActualIP
  | rcvSpindlesActive
  | rcvSpindlesMax
  | rcvSpindlesTool
  | rcvStateMessageBox
  | rcvStateMessageBoxAxisControls
  | rcvStateMessageBoxMessage
  | rcvStateMessageBoxMode
  | rcvStateMessageBoxSeq
  | rcvStateMessageBoxTimeout
  | rcvStateMessageBoxTitle
  | rcvToolsExtruders
  | rcvToolsHeaters
  | rcvToolsOffsets
  | rcvToolsNumber
  | rcvLiveToolsState
  | rcvVolumesMounted
  deriving DecidableEq, Repr

open ReceivedDataEvent

/-! ### Poll scheduler (PanelDue.cpp, struct Seqs and friends) -/

/-- One 16-bit sequence counter and one dirty ("update") bit per
subsystem, mirroring `struct Seqs`.  Counters are Nats kept below
2^16 by the truncating assignment in `UpdateSeqs`. -/
structure Seqs where
  boards : Nat
  directories : Nat
  fans : Nat
  heat : Nat
  inputs : Nat
  job : Nat
  move : Nat
  network : Nat
  scanner : Nat
  sensors : Nat
  spindles : Nat
  state : Nat
  tools : Nat
  volumes : Nat
  updateBoards : Bool
  updateDirectories : Bool
  updateFans : Bool
  updateHeat : Bool
  updateInputs : Bool
  updateJob : Bool
  updateMove : Bool
  updateNetwork : Bool
  updateScanner : Bool
  updateSensors : Bool
  updateSpindles : Bool
  updateState : Bool
  updateTools : Bool
  updateVolumes : Bool
  deriving DecidableEq, Repr

/-- Mirrors `resetSeqs()`: every sequence counter is assigned
`(uint16_t)((1 << 16) - 1) = 65535` and every update bit is assigned
`false`.  The function overwrites every field of the global, so the
previous state is irrelevant.  (The trailing `Reconnect()` call only
resets the connection status display, outside this model.) -/
def resetSeqs : Seqs :=
  { boards := 65535, directories := 65535, fans := 65535, heat := 65535
    inputs := 65535, job := 65535, move := 65535, network := 65535
    scanner := 65535, sensors := 65535, spindles := 65535, state := 65535
    tools := 65535, volumes := 65535
    updateBoards := false, updateDirectories := false, updateFans := false
    updateHeat := false, updateInputs := false, updateJob := false
    updateMove := false, updateNetwork := false, updateScanner := false
    updateSensors := false, updateSpindles := false, updateState := false
    updateTools := false, updateVolumes := false }

/-- Mirrors `struct OMRequestParams`: the key and flag string of a
subsystem detail request. -/
structure OMRequestParams where
  key : String
  flags : String := "v"
  deriving DecidableEq, Repr

def noKeyParams : OMRequestParams := { key := "" }
def boardsParams : OMRequestParams := { key := "boards" }
def directoriesParams : OMRequestParams := { key := "directories" }
def fansParams : OMRequestParams := { key := "fans" }
def heatParams : OMRequestParams := { key := "heat" }
def inputsParams : OMRequestParams := { key := "inputs" }
def jobParams : OMRequestParams := { key := "job" }
def moveParams : OMRequestParams := { key := "move" }
def networkParams : OMRequestParams := { key := "network" }
def scannerParams : OMRequestParams := { key := "scanner" }
def sensorsParams : OMRequestParams := { key := "sensors" }
def spindlesParams : OMRequestParams := { key := "spindles" }
def stateParams : OMRequestParams := { key := "state", flags := "vn" }
def toolsParams : OMRequestParams := { key := "tools" }
def volumesParams : OMRequestParams := { key := "volumes" }

/-- Mirrors `GetNextToPoll()`: scan the update bits in the fixed order
of the source and return the request parameters of the first dirty
subsystem, or none (`nullptr`). -/
def GetNextToPoll (s : Seqs) : Option OMRequestParams :=
  if s.updateNetwork then some networkParams
  else if s.updateBoards then some boardsParams
  else if s.updateMove then some moveParams
  else if s.updateHeat then some heatParams
  else if s.updateTools then some toolsParams
  else if s.updateSpindles then some spindlesParams
  else if s.updateDirectories then some directoriesParams
  else if s.updateFans then some fansParams
  else if s.updateInputs then some inputsParams
  else if s.updateJob then some jobParams
  else if s.updateScanner then some scannerParams
  else if s.updateSensors then some sensorsParams
  else if s.updateState then some stateParams
  else if s.updateVolumes then some volumesParams
  else none

/-- Mirrors `SeqsRequestDone(rde)`: clear the dirty bit of the
subsystem a detail reply was for. -/
def SeqsRequestDone (s : Seqs) (rde : ReceivedDataEvent) : Seqs :=
  match rde with
  | rcvOMKeyBoards => { s with updateBoards := false }
  | rcvOMKeyDirectories => { s with updateDirectories := false }
  | rcvOMKeyFans => { s with updateFans := false }
  | rcvOMKeyHeat => { s with updateHeat := false }
  | rcvOMKeyInputs => { s with updateInputs := false }
  | rcvOMKeyJob => { s with updateJob := false }
  | rcvOMKeyMove => { s with updateMove := false }
  | rcvOMKeyNetwork => { s with updateNetwork := false }
  | rcvOMKeyScanner => { s with updateScanner := false }
  | rcvOMKeySensors => { s with updateSensors := false }
  | rcvOMKeySpindles => { s with updateSpindles := false }
  | rcvOMKeyState => { s with updateState := false }
  | rcvOMKeyTools => { s with updateTools := false }
  | rcvOMKeyVolumes => { s with updateVolumes := false }
  | _ => s

/-- Mirrors `UpdateSeqs(rde, ival)`.  Only the subsystems whose
`FETCH_*` macro is 1 in the source (boards, heat, job, move, network,
spindles, state, tools, volumes) have a case; the others fall through
to `default`.  The `uint16_t = int32_t` assignment truncates mod 2^16;
the `!=` comparison promotes the stored `uint16_t` to `int32_t`. -/
def UpdateSeqs (s : Seqs) (rde : ReceivedDataEvent) (ival : Int) : Seqs :=
  match rde with
  | rcvLiveSeqsBoards =>
      if (s.boards : Int) ≠ ival then
        { s with boards := (ival % 65536).toNat, updateBoards := true }
      else s
  | rcvLiveSeqsHeat =>
      if (s.heat : Int) ≠ ival then
        { s with heat := (ival % 65536).toNat, updateHeat := true }
      else s
  | rcvLiveSeqsJob =>
      if (s.job : Int) ≠ ival then
        { s with job := (ival % 65536).toNat, updateJob := true }
      else s
  | rcvLiveSeqsMove =>
      if (s.move : Int) ≠ ival then
        { s with move := (ival % 65536).toNat, updateMove := true }
      else s
  | rcvLiveSeqsNetwork =>
      if (s.network : Int) ≠ ival then
        { s with network := (ival % 65536).toNat, updateNetwork := true }
      else s
  | rcvLiveSeqsSpindles =>
      if (s.spindles : Int) ≠ ival then
        { s with spindles := (ival % 65536).toNat, updateSpindles := true }
      else s
  | rcvLiveSeqsState =>
      if (s.state : Int) ≠ ival then
        { s with state := (ival % 65536).toNat, updateState := true }
      else s
  | rcvLiveSeqsTools =>
      if (s.tools : Int) ≠ ival then
        { s with tools := (ival % 65536).toNat, updateTools := true }
      else s
  | rcvLiveSeqsVolumes =>
      if (s.volumes : Int) ≠ ival then
        { s with volumes := (ival % 65536).toNat, updateVolumes := true }
      else s
  | _ => s

/-- Scheduler state relevant to restart detection: the per-subsystem
counters/bits and the last uptime value received. -/
structure PollState where
  seqs : Seqs
  remoteUpTime : Nat
  deriving DecidableEq, Repr

/-- Mirrors the `rcvLiveStateUptime` case of `ProcessReceivedValue`
once `GetUnsignedInteger` has produced `uival`: a decrease triggers
`resetSeqs()` (restart recovery); the new uptime is stored either way.
Returns the new state and whether a restart was detected. -/
def processUptime (st : PollState) (uival : Nat) : PollState × Bool :=
  if uival < st.remoteUpTime then
    ({ seqs := resetSeqs, remoteUpTime := uival }, true)
  else
    ({ st with remoteUpTime := uival }, false)

/-- Feed a list of uptime values, counting restart detections. -/
def processUptimes (st : PollState) (l : List Nat) : PollState × Nat :=
  l.foldl
    (fun acc u =>
      let r := processUptime acc.1 u
      (r.1, acc.2 + (if r.2 then 1 else 0)))
    (st, 0)

/-- Startup state: `main` calls `resetSeqs()` before the main loop and
`remoteUpTime` is initialised to 0. -/
def initialPollState : PollState := { seqs := resetSeqs, remoteUpTime := 0 }

/-- All fourteen dirty bits set. -/
def allDirty (s : Seqs) : Bool :=
  s.updateBoards && s.updateDirectories && s.updateFans && s.updateHeat &&
  s.updateInputs && s.updateJob && s.updateMove && s.updateNetwork &&
  s.updateScanner && s.updateSensors && s.updateSpindles && s.updateState &&
  s.updateTools && s.updateVolumes

/-- All fourteen counters hold 65535. -/
def allSeqsMismatch (s : Seqs) : Bool :=
  s.boards = 65535 && s.directories = 65535 && s.fans = 65535 &&
  s.heat = 65535 && s.inputs = 65535 && s.job = 65535 && s.move = 65535 &&
  s.network = 65535 && s.scanner = 65535 && s.sensors = 65535 &&
  s.spindles = 65535 && s.state = 65535 && s.tools = 65535 &&
  s.volumes = 65535

/-- Apply `UpdateSeqs` with value `v` for every subsystem the firmware
fetches (the nine with `FETCH_* = 1`). -/
def updateAllFetched (s : Seqs) (v : Int) : Seqs :=
  let s := UpdateSeqs s rcvLiveSeqsBoards v
  let s := UpdateSeqs s rcvLiveSeqsHeat v
  let s := UpdateSeqs s rcvLiveSeqsJob v
  let s := UpdateSeqs s rcvLiveSeqsMove v
  let s := UpdateSeqs s rcvLiveSeqsNetwork v
  let s := UpdateSeqs s rcvLiveSeqsSpindles v
  let s := UpdateSeqs s rcvLiveSeqsState v
  let s := UpdateSeqs s rcvLiveSeqsTools v
  UpdateSeqs s rcvLiveSeqsVolumes v

/-- The nine dirty bits of the fetched subsystems. -/
def allFetchedDirty (s : Seqs) : Bool :=
  s.updateBoards && s.updateHeat && s.updateJob && s.updateMove &&
  s.updateNetwork && s.updateSpindles && s.updateState && s.updateTools &&
  s.updateVolumes

/-! ### Claim C1: restart resync -/

/-- C1, counterexample.  Feeding the uptime values [10, 20, 5] does
perform restart recovery exactly once (at the 5), but immediately after
the reset every subsystem dirty bit is CLEARED, not set: `resetSeqs()`
assigns `false` to all fourteen `update*` bits.  The claim that "every
subsystem dirty bit is set immediately after the reset" is false. -/
theorem c1_restart_dirty_cex :
    (processUptimes initialPollState [10, 20, 5]).2 = 1 ∧
    allDirty (processUptimes initialPollState [10, 20, 5]).1.seqs = false := by
  constructor <;> rfl

/-- C1, amended: feeding [10, 20, 5] triggers restart recovery exactly
once, at the 5 (no reset after [10] or [10, 20]); immediately after the
reset every per-subsystem sequence counter holds 65535 and every
subsystem dirty bit is cleared; the dirty bits then become set as soon
as the remote next reports sequence values, because any reported value
other than 65535 mismatches the reset counters (shown for all nine
subsystems the firmware fetches). -/
theorem c1_restart_resync_amended :
    (processUptimes initialPollState [10]).2 = 0 ∧
    (processUptimes initialPollState [10, 20]).2 = 0 ∧
    (processUptimes initialPollState [10, 20, 5]).2 = 1 ∧
    allSeqsMismatch (processUptimes initialPollState [10, 20, 5]).1.seqs = true ∧
    allDirty (processUptimes initialPollState [10, 20, 5]).1.seqs = false ∧
    (∀ v : Int, v ≠ 65535 →
      allFetchedDirty
        (updateAllFetched (processUptimes initialPollState [10, 20, 5]).1.seqs v)
        = true) := by
  refine ⟨rfl, rfl, rfl, rfl, rfl, ?_⟩
  intro v hv
  have h : ¬((65535 : Int) = v) := fun hh => hv hh.symm
  simp [processUptimes, processUptime, initialPollState, resetSeqs,
    updateAllFetched, UpdateSeqs, allFetchedDirty, h]

/-- C1 witness: the amended theorem applied at the concrete next
sequence value 3. -/
theorem c1_restart_resync_witness :
    allFetchedDirty
      (updateAllFetched (processUptimes initialPollState [10, 20, 5]).1.seqs 3)
      = true :=
  (c1_restart_resync_amended.2.2.2.2.2) 3 (by decide)

/-! ### Claim C3: poll priority -/

/-- The fixed priority order of the spec, as a list of request
parameters paired with the dirty-bit of that subsystem. -/
def prioEntries : List (OMRequestParams × (Seqs → Bool)) :=
  [(networkParams, Seqs.updateNetwork), (boardsParams, Seqs.updateBoards),
   (moveParams, Seqs.updateMove), (heatParams, Seqs.updateHeat),
   (toolsParams, Seqs.updateTools), (spindlesParams, Seqs.updateSpindles),
   (directoriesParams, Seqs.updateDirectories), (fansParams, Seqs.updateFans),
   (inputsParams, Seqs.updateInputs), (jobParams, Seqs.updateJob),
   (scannerParams, Seqs.updateScanner), (sensorsParams, Seqs.updateSensors),
   (stateParams, Seqs.updateState), (volumesParams, Seqs.updateVolumes)]

/-- Specification-side next-to-poll: the detail request of the first
dirty subsystem in the priority order, if any. -/
def specNextToPoll (s : Seqs) : Option OMRequestParams :=
  (prioEntries.find? (fun e => e.2 s)).map Prod.fst

/-- The state with exactly heat, move and tools dirty. -/
def heatMoveToolsDirty : Seqs :=
  { resetSeqs with updateHeat := true, updateMove := true, updateTools := true }

/-- C3: for every combination of dirty bits, `GetNextToPoll` returns
the request of the first dirty subsystem in the fixed priority order
network > boards > move > heat > tools > spindles > directories > fans
> inputs > job > scanner > sensors > state > volumes; in particular,
with exactly {heat, move, tools} dirty it returns move, and after the
move bit is cleared (`SeqsRequestDone` for the move reply) it returns
heat. -/
theorem c3_poll_priority :
    (∀ s : Seqs, GetNextToPoll s = specNextToPoll s) ∧
    GetNextToPoll heatMoveToolsDirty = some moveParams ∧
    GetNextToPoll (SeqsRequestDone heatMoveToolsDirty rcvOMKeyMove)
      = some heatParams := by
  refine ⟨?_, rfl, rfl⟩
  intro s
  unfold GetNextToPoll specNextToPoll prioEntries
  by_cases h1 : s.updateNetwork
  · simp [h1, List.find?]
  by_cases h2 : s.updateBoards
  · simp [h1, h2, List.find?]
  by_cases h3 : s.updateMove
  · simp [h1, h2, h3, List.find?]
  by_cases h4 : s.updateHeat
  · simp [h1, h2, h3, h4, List.find?]
  by_cases h5 : s.updateTools
  · simp [h1, h2, h3, h4, h5, List.find?]
  by_cases h6 : s.updateSpindles
  · simp [h1, h2, h3, h4, h5, h6, List.find?]
  by_cases h7 : s.updateDirectories
  · simp [h1, h2, h3, h4, h5, h6, h7, List.find?]
  by_cases h8 : s.updateFans
  · simp [h1, h2, h3, h4, h5, h6, h7, h8, List.find?]
  by_cases h9 : s.updateInputs
  · simp [h1, h2, h3, h4, h5, h6, h7, h8, h9, List.find?]
  by_cases h10 : s.updateJob
  · simp [h1, h2, h3, h4, h5, h6, h7, h8, h9, h10, List.find?]
  by_cases h11 : s.updateScanner
  · simp [h1, h2, h3, h4, h5, h6, h7, h8, h9, h10, h11, List.find?]
  by_cases h12 : s.updateSensors
  · simp [h1, h2, h3, h4, h5, h6, h7, h8, h9, h10, h11, h12, List.find?]
  by_cases h13 : s.updateState
  · simp [h1, h2, h3, h4, h5, h6, h7, h8, h9, h10, h11, h12, h13, List.find?]
  by_cases h14 : s.updateVolumes
  · simp [h1, h2, h3, h4, h5, h6, h7, h8, h9, h10, h11, h12, h13, h14,
      List.find?]
  simp [h1, h2, h3, h4, h5, h6, h7, h8, h9, h10, h11, h12, h13, h14,
    List.find?]

/-! ### Message session (PanelDue.cpp, Alert staging and message end) -/

/-- Modelled from the spec: the header defining `Alert` and its flag
constants (`Alert::GotText` ... `Alert::GotAll`) is not among the
source files.  Per the spec the composite has six fields (text, title,
mode, sequence number, timeout, axis-control bitmask) and `GotAll`
means all six seen.  The uint32 bitmask is represented by one Boolean
per field; bit positions are immaterial to every use in the source
(`flags = 0`, `flags |= Got*`, `flags & GotMode`, `flags == GotAll`). -/
@[ext]
structure AlertFlags where
  text : Bool
  title : Bool
  mode : Bool
  seq : Bool
  timeout : Bool
  controls : Bool
  deriving DecidableEq, Repr

/-- No field seen (`flags = 0`). -/
def AlertFlags.clearedAll : AlertFlags :=
  ⟨false, false, false, false, false, false⟩

/-- All six fields seen (`Alert::GotAll`). -/
def AlertFlags.gotAll : AlertFlags :=
  ⟨true, true, true, true, true, true⟩

/-- The staged alert composite.  The timeout is a float in the source;
its numeric value is never branched on by the session, so the raw wire
text is stored in its place. -/
@[ext]
structure Alert where
  flags : AlertFlags
  mode : Int
  seq : Nat
  controls : Nat
  text : String
  title : String
  timeoutRaw : String
  deriving DecidableEq, Repr

/-- One staged composite field, carrying its (already coerced) value:
the payload of the `rcvStateMessageBox*` cases of
`ProcessReceivedValue` after the `Get*` parse succeeded. -/
inductive AlertField where
  | text (v : String)
  | title (v : String)
  | mode (v : Int)
  | seq (v : Nat)
  | timeout (v : String)
  | controls (v : Nat)
  deriving DecidableEq, Repr

/-- Mirrors the `rcvStateMessageBox*` cases: store the value into the
staged composite and set the corresponding seen bit. -/
def stageAlertField (a : Alert) : AlertField → Alert
  | .text v => { a with text := v, flags := { a.flags with text := true } }
  | .title v => { a with title := v, flags := { a.flags with title := true } }
  | .mode v => { a with mode := v, flags := { a.flags with mode := true } }
  | .seq v => { a with seq := v, flags := { a.flags with seq := true } }
  | .timeout v =>
      { a with timeoutRaw := v, flags := { a.flags with timeout := true } }
  | .controls v =>
      { a with controls := v, flags := { a.flags with controls := true } }

/-- Session state of the alert pipeline: the staged composite and the
sequence number of the last delivered alert (`lastAlertSeq`,
initialised to 0 in the source). -/
@[ext]
structure Session where
  currentAlert : Alert
  lastAlertSeq : Nat
  deriving DecidableEq, Repr

/-- Mirrors `StartReceivedMessage()` restricted to the alert pipeline:
`currentAlert.flags = 0`.  (The message-log and file-manager calls are
outside this model.) -/
def StartReceivedMessage (s : Session) : Session :=
  { s with currentAlert := { s.currentAlert with flags := .clearedAll } }

/-- Notification delivered to the alert collaborator at message end. -/
inductive AlertEvent where
  | delivered (a : Alert)
  | cleared
  deriving DecidableEq, Repr

/-- Mirrors the alert part of `EndReceivedMessage()`: a staged mode
that is present and negative delivers a clear; else a fully staged
composite whose sequence number differs from the last delivered one is
delivered and remembered; else nothing happens.  (The scheduler
bookkeeping of `EndReceivedMessage` is modelled by
`SeqsRequestDone`.) -/
def EndReceivedMessage (s : Session) : Session × Option AlertEvent :=
  if s.currentAlert.flags.mode ∧ s.currentAlert.mode < 0 then
    (s, some .cleared)
  else if s.currentAlert.flags = AlertFlags.gotAll ∧
      s.currentAlert.seq ≠ s.lastAlertSeq then
    ({ s with lastAlertSeq := s.currentAlert.seq },
      some (.delivered s.currentAlert))
  else
    (s, none)

/-- Stage a list of composite fields into the session. -/
def processAlertFields (s : Session) (l : List AlertField) : Session :=
  { s with currentAlert := l.foldl stageAlertField s.currentAlert }

/-- One whole message: begin, stage the composite fields, end. -/
def runMessage (s : Session) (l : List AlertField) :
    Session × Option AlertEvent :=
  EndReceivedMessage (processAlertFields (StartReceivedMessage s) l)

/-- Whether an outcome is an alert delivery. -/
def isDelivered : Option AlertEvent → Bool
  | some (.delivered _) => true
  | _ => false

/-- Count an outcome as 0 or 1 deliveries. -/
def deliveredCount (o : Option AlertEvent) : Nat :=
  if isDelivered o then 1 else 0

/-- Set the seen bit of one field. -/
def orFlag (f : AlertFlags) : AlertField → AlertFlags
  | .text _ => { f with text := true }
  | .title _ => { f with title := true }
  | .mode _ => { f with mode := true }
  | .seq _ => { f with seq := true }
  | .timeout _ => { f with timeout := true }
  | .controls _ => { f with controls := true }

/-- The seen mask a message leaves behind (starting from `flags = 0`). -/
def stagedFlags (l : List AlertField) : AlertFlags :=
  l.foldl orFlag .clearedAll

def isTextF : AlertField → Bool | .text _ => true | _ => false
def isTitleF : AlertField → Bool | .title _ => true | _ => false
def isModeF : AlertField → Bool | .mode _ => true | _ => false
def isSeqF : AlertField → Bool | .seq _ => true | _ => false
def isTimeoutF : AlertField → Bool | .timeout _ => true | _ => false
def isControlsF : AlertField → Bool | .controls _ => true | _ => false

theorem foldOrFlag_eq (l : List AlertField) :
    ∀ g : AlertFlags, l.foldl orFlag g =
      ⟨g.text || l.any isTextF, g.title || l.any isTitleF,
       g.mode || l.any isModeF, g.seq || l.any isSeqF,
       g.timeout || l.any isTimeoutF, g.controls || l.any isControlsF⟩ := by
  induction l with
  | nil => intro g; simp
  | cons e t ih =>
      intro g
      rw [List.foldl_cons, ih]
      cases e <;>
        simp [orFlag, isTextF, isTitleF, isModeF, isSeqF, isTimeoutF,
          isControlsF, Bool.or_assoc]

theorem stagedFlags_eq (l : List AlertField) :
    stagedFlags l =
      ⟨l.any isTextF, l.any isTitleF, l.any isModeF, l.any isSeqF,
       l.any isTimeoutF, l.any isControlsF⟩ := by
  rw [stagedFlags, foldOrFlag_eq]
  rfl

theorem fold_stage_flags (l : List AlertField) :
    ∀ a : Alert, (l.foldl stageAlertField a).flags = l.foldl orFlag a.flags := by
  induction l with
  | nil => intro a; rfl
  | cons e t ih =>
      intro a
      rw [List.foldl_cons, List.foldl_cons, ih]
      cases e <;> rfl


/-- Fields not staged by a message are left untouched. -/
theorem fold_proj_untouched {V : Type} (proj : Alert → V)
    (sel : AlertField → Bool)
    (hcompat : ∀ (a : Alert) (e : AlertField), sel e = false →
      proj (stageAlertField a e) = proj a) :
    ∀ l : List AlertField, l.any sel = false →
      ∀ a : Alert, proj (l.foldl stageAlertField a) = proj a := by
  intro l
  induction l with
  | nil => intro _ a; rfl
  | cons e t ih =>
      intro h a
      rw [List.any_cons, Bool.or_eq_false_iff] at h
      rw [List.foldl_cons, ih h.2, hcompat a e h.1]

/-- Fields staged by a message do not depend on the starting
composite. -/
theorem fold_proj_congr {V : Type} (proj : Alert → V)
    (sel : AlertField → Bool)
    (hcompat : ∀ (a : Alert) (e : AlertField), sel e = false →
      proj (stageAlertField a e) = proj a)
    (hover : ∀ (a a' : Alert) (e : AlertField), sel e = true →
      proj (stageAlertField a e) = proj (stageAlertField a' e)) :
    ∀ l : List AlertField, l.any sel = true →
      ∀ a a' : Alert,
        proj (l.foldl stageAlertField a) = proj (l.foldl stageAlertField a') := by
  intro l
  induction l with
  | nil => intro h; simp at h
  | cons e t ih =>
      intro h a a'
      rw [List.foldl_cons, List.foldl_cons]
      by_cases ht : t.any sel
      · exact ih ht _ _
      · have hse : sel e = true := by
          rw [List.any_cons] at h
          rcases Bool.or_eq_true_iff.mp h with hh | hh
          · exact hh
          · exact absurd hh ht
        rw [fold_proj_untouched proj sel hcompat t (Bool.not_eq_true _ ▸ ht),
          fold_proj_untouched proj sel hcompat t (Bool.not_eq_true _ ▸ ht)]
        exact hover a a' e hse

/-- A complete message (all six fields staged) produces the same staged
composite from any two starting composites: every component is
overwritten and the seen mask is rebuilt from zero. -/
theorem stage_complete_congr {l : List AlertField}
    (h : stagedFlags l = AlertFlags.gotAll) (a a' : Alert) :
    l.foldl stageAlertField { a with flags := .clearedAll } =
      l.foldl stageAlertField { a' with flags := .clearedAll } := by
  have he := stagedFlags_eq l
  rw [h] at he
  have htext : l.any isTextF = true := congrArg AlertFlags.text he.symm
  have htitle : l.any isTitleF = true := congrArg AlertFlags.title he.symm
  have hmode : l.any isModeF = true := congrArg AlertFlags.mode he.symm
  have hseq : l.any isSeqF = true := congrArg AlertFlags.seq he.symm
  have htimeout : l.any isTimeoutF = true := congrArg AlertFlags.timeout he.symm
  have hcontrols : l.any isControlsF = true :=
    congrArg AlertFlags.controls he.symm
  ext1
  · rw [fold_stage_flags, fold_stage_flags]
  · exact fold_proj_congr Alert.mode isModeF
      (by intro b e hse; cases e <;> simp [stageAlertField, isModeF] at hse ⊢)
      (by intro b b' e hse; cases e <;> simp [stageAlertField, isModeF] at hse ⊢)
      l hmode _ _
  · exact fold_proj_congr Alert.seq isSeqF
      (by intro b e hse; cases e <;> simp [stageAlertField, isSeqF] at hse ⊢)
      (by intro b b' e hse; cases e <;> simp [stageAlertField, isSeqF] at hse ⊢)
      l hseq _ _
  · exact fold_proj_congr Alert.controls isControlsF
      (by intro b e hse; cases e <;>
        simp [stageAlertField, isControlsF] at hse ⊢)
      (by intro b b' e hse; cases e <;>
        simp [stageAlertField, isControlsF] at hse ⊢)
      l hcontrols _ _
  · exact fold_proj_congr Alert.text isTextF
      (by intro b e hse; cases e <;> simp [stageAlertField, isTextF] at hse ⊢)
      (by intro b b' e hse; cases e <;> simp [stageAlertField, isTextF] at hse ⊢)
      l htext _ _
  · exact fold_proj_congr Alert.title isTitleF
      (by intro b e hse; cases e <;> simp [stageAlertField, isTitleF] at hse ⊢)
      (by intro b b' e hse; cases e <;> simp [stageAlertField, isTitleF] at hse ⊢)
      l htitle _ _
  · exact fold_proj_congr Alert.timeoutRaw isTimeoutF
      (by intro b e hse; cases e <;>
        simp [stageAlertField, isTimeoutF] at hse ⊢)
      (by intro b b' e hse; cases e <;>
        simp [stageAlertField, isTimeoutF] at hse ⊢)
      l htimeout _ _

/-! ### Claim C2: composite atomicity -/

/-- The seen mask with all six bits except the one of the given field. -/
def allExceptFlag : AlertField → AlertFlags
  | .text _ => { AlertFlags.gotAll with text := false }
  | .title _ => { AlertFlags.gotAll with title := false }
  | .mode _ => { AlertFlags.gotAll with mode := false }
  | .seq _ => { AlertFlags.gotAll with seq := false }
  | .timeout _ => { AlertFlags.gotAll with timeout := false }
  | .controls _ => { AlertFlags.gotAll with controls := false }

theorem staged_session_flags (s : Session) (m : List AlertField) :
    (processAlertFields (StartReceivedMessage s) m).currentAlert.flags =
      stagedFlags m := by
  show (m.foldl stageAlertField (StartReceivedMessage s).currentAlert).flags = _
  rw [fold_stage_flags]
  rfl

/-- An incomplete message delivers no alert at end and leaves
`lastAlertSeq` unchanged. -/
theorem incomplete_no_delivery (s : Session) (m : List AlertField)
    (hm : stagedFlags m ≠ AlertFlags.gotAll) :
    isDelivered (runMessage s m).2 = false ∧
    (runMessage s m).1.lastAlertSeq = s.lastAlertSeq := by
  unfold runMessage
  set t1 := processAlertFields (StartReceivedMessage s) m with ht1
  have hne : t1.currentAlert.flags ≠ AlertFlags.gotAll := by
    rw [ht1, staged_session_flags s m]
    exact hm
  have hLseq : t1.lastAlertSeq = s.lastAlertSeq := rfl
  unfold EndReceivedMessage
  by_cases hb : (t1.currentAlert.flags.mode = true ∧ t1.currentAlert.mode < 0)
  · simp [hb, isDelivered, hLseq]
  · simp [hb, hne, isDelivered, hLseq]

/-- C2: a message staging only five of the six composite fields
delivers no alert at message end, and the staged state it leaves does
not leak into the next message: a subsequent complete message behaves
exactly as if the partial message had never happened. -/
theorem c2_composite_atomicity :
    (∀ (s : Session) (m : List AlertField) (f : AlertField),
        stagedFlags m = allExceptFlag f →
        isDelivered (runMessage s m).2 = false) ∧
    (∀ (s : Session) (m1 m2 : List AlertField),
        stagedFlags m1 ≠ AlertFlags.gotAll →
        stagedFlags m2 = AlertFlags.gotAll →
        runMessage (runMessage s m1).1 m2 = runMessage s m2) := by
  constructor
  · intro s m f hm
    refine (incomplete_no_delivery s m ?_).1
    rw [hm]
    cases f <;> simp [allExceptFlag, AlertFlags.gotAll]
  · intro s m1 m2 h1 h2
    have hL : (runMessage s m1).1.lastAlertSeq = s.lastAlertSeq :=
      (incomplete_no_delivery s m1 h1).2
    have hstage : ∀ c : Session,
        processAlertFields (StartReceivedMessage c) m2 =
          (⟨m2.foldl stageAlertField (StartReceivedMessage s).currentAlert,
            c.lastAlertSeq⟩ : Session) := by
      intro c
      have hc := stage_complete_congr h2 c.currentAlert s.currentAlert
      ext1
      · exact hc
      · rfl
    have hrunEq : ∀ c : Session, runMessage c m2 =
        EndReceivedMessage
          ⟨m2.foldl stageAlertField (StartReceivedMessage s).currentAlert,
            c.lastAlertSeq⟩ := by
      intro c
      unfold runMessage
      rw [hstage c]
    rw [hrunEq (runMessage s m1).1, hrunEq s, hL]

def alertInit : Alert :=
  { flags := .clearedAll, mode := 0, seq := 0, controls := 0,
    text := "", title := "", timeoutRaw := "" }

/-- Session at startup: `lastAlertSeq = 0` per the source; the staged
composite holds default values. -/
def sessionInit : Session := { currentAlert := alertInit, lastAlertSeq := 0 }

def fiveFieldMsg : List AlertField :=
  [.text "Proceed?", .title "Confirm", .mode 2, .seq 5, .timeout "0.0"]

def sixFieldMsg : List AlertField :=
  [.text "Done", .title "Info", .mode 1, .seq 7, .timeout "0.0", .controls 3]

/-- C2 witness: the five-field message (controls missing) delivers
nothing, and a following complete message behaves as from a fresh
session. -/
theorem c2_composite_atomicity_witness :
    isDelivered (runMessage sessionInit fiveFieldMsg).2 = false ∧
    runMessage (runMessage sessionInit fiveFieldMsg).1 sixFieldMsg =
      runMessage sessionInit sixFieldMsg :=
  ⟨c2_composite_atomicity.1 sessionInit fiveFieldMsg (.controls 0) (by decide),
   c2_composite_atomicity.2 sessionInit fiveFieldMsg sixFieldMsg (by decide)
     (by decide)⟩

/-! ### Claim C7: alert dedup by sequence number -/

def completeMsgSeqZero : List AlertField :=
  [.mode 1, .text "t", .title "T", .seq 0, .timeout "1.0", .controls 0]

/-- C7, counterexample.  Delivery is NOT exactly-once for every pair of
complete alert messages with the same sequence number: from the startup
session (`lastAlertSeq = 0`), two complete messages carrying sequence
number 0 are delivered zero times, because the first one already
matches the initial `lastAlertSeq`. -/
theorem c7_dedup_cex :
    stagedFlags completeMsgSeqZero = AlertFlags.gotAll ∧
    deliveredCount (runMessage sessionInit completeMsgSeqZero).2 +
      deliveredCount
        (runMessage (runMessage sessionInit completeMsgSeqZero).1
          completeMsgSeqZero).2 = 0 := by
  constructor <;> rfl

/-- C7, amended: delivery is at-most-once per sequence number.  For any
pair of complete alert messages with the same sequence number, at most
one alert is delivered, and if the first end delivers then the second
never does; the pair delivers exactly once precisely when the staged
mode is non-negative and the staged sequence number differs from the
previously delivered one (initially 0). -/
theorem c7_dedup_amended :
    ∀ (s : Session) (m : List AlertField),
      stagedFlags m = AlertFlags.gotAll →
      deliveredCount (runMessage s m).2 +
        deliveredCount (runMessage (runMessage s m).1 m).2 ≤ 1 ∧
      (isDelivered (runMessage s m).2 = true →
        isDelivered (runMessage (runMessage s m).1 m).2 = false) ∧
      (deliveredCount (runMessage s m).2 +
          deliveredCount (runMessage (runMessage s m).1 m).2 = 1 ↔
        (0 ≤ (m.foldl stageAlertField (StartReceivedMessage s).currentAlert).mode
          ∧ (m.foldl stageAlertField (StartReceivedMessage s).currentAlert).seq
            ≠ s.lastAlertSeq)) := by
  intro s m h
  set A := m.foldl stageAlertField (StartReceivedMessage s).currentAlert
    with hAdef
  have hAflags : A.flags = AlertFlags.gotAll := by
    rw [hAdef, fold_stage_flags]
    exact h
  have hmodeT : A.flags.mode = true := by rw [hAflags]; rfl
  have hstage : ∀ c : Session,
      processAlertFields (StartReceivedMessage c) m =
        (⟨A, c.lastAlertSeq⟩ : Session) := by
    intro c
    have hc := stage_complete_congr h c.currentAlert s.currentAlert
    ext1
    · exact hc
    · rfl
  have hrun : ∀ c : Session,
      runMessage c m = EndReceivedMessage ⟨A, c.lastAlertSeq⟩ := by
    intro c
    unfold runMessage
    rw [hstage c]
  by_cases hmode : A.mode < 0
  · have e1 : ∀ L : Nat, EndReceivedMessage ⟨A, L⟩ =
        ((⟨A, L⟩ : Session), some .cleared) := by
      intro L
      simp [EndReceivedMessage, hmodeT, hmode]
    simp only [hrun, e1]
    refine ⟨by simp [deliveredCount, isDelivered],
      by simp [isDelivered], ?_⟩
    simp [deliveredCount, isDelivered, not_le.mpr hmode]
  · by_cases hseq : A.seq = s.lastAlertSeq
    · have e1 : EndReceivedMessage ⟨A, s.lastAlertSeq⟩ =
          ((⟨A, s.lastAlertSeq⟩ : Session), none) := by
        simp [EndReceivedMessage, hmode, hseq]
      simp only [hrun, e1]
      refine ⟨by simp [deliveredCount, isDelivered],
        by simp [isDelivered], ?_⟩
      simp [deliveredCount, isDelivered, hseq]
    · have e1 : EndReceivedMessage ⟨A, s.lastAlertSeq⟩ =
          ((⟨A, A.seq⟩ : Session), some (.delivered A)) := by
        simp [EndReceivedMessage, hAflags, hseq, hmode]
      have e2 : EndReceivedMessage ⟨A, A.seq⟩ =
          ((⟨A, A.seq⟩ : Session), none) := by
        simp [EndReceivedMessage, hmode]
      simp only [hrun, e1, e2]
      refine ⟨by simp [deliveredCount, isDelivered],
        by simp [isDelivered], ?_, ?_⟩
      · intro _
        exact ⟨not_lt.mp hmode, hseq⟩
      · intro _
        simp [deliveredCount, isDelivered]

/-- C7 witness: the amended theorem applied to a concrete complete
message with a fresh sequence number. -/
theorem c7_dedup_witness :
    deliveredCount (runMessage sessionInit sixFieldMsg).2 +
      deliveredCount
        (runMessage (runMessage sessionInit sixFieldMsg).1 sixFieldMsg).2 ≤ 1 :=
  (c7_dedup_amended sessionInit sixFieldMsg (by decide)).1

/-! ### Object-model store (UserInterface.cpp, sorted singly-linked
collections keyed by remote index) -/

/-- Tool payload: heater/extruder references (-1 = none) and the
back-pointer to the owning spindle node, stored as that node's
allocation id (models the `Spindle*` pointer).  The float offset
vector, the status enum and the display-slot fields are never read by
the operations under verification and are omitted. -/
structure ToolP where
  heater : Int := -1
  extruder : Int := -1
  spindle : Option Nat := none
  deriving DecidableEq, Repr

/-- Spindle payload: the tool forward reference (-1 = none).  The float
speed fields are never read by the operations under verification and
are omitted. -/
structure SpindleP where
  tool : Int := -1
  deriving DecidableEq, Repr

/-- One linked-list node.  `id` models the heap address of the node
(fresh per allocation): pointer comparison and pointer-directed
mutation are id comparison and id-directed update. -/
structure Node (β : Type) where
  id : Nat
  index : Nat
  payload : β
  deriving DecidableEq, Repr

/-- Mirrors the head-match `allFollowing` loop of `Remove`:

    for (auto toDelete = start; toDelete != nullptr; toDelete = start->next)
    { start = toDelete->next; delete toDelete; }

The loop body advances `start` to `toDelete->next` but the loop update
then reads `start->next`, so every second node is skipped (leaked, not
relinked) and, when `start` has just become null, the update
dereferences a null pointer.  Arguments are the current `toDelete` and
`start` pointers as suffixes of the original list (no next field is
ever written in this branch); `none` models the null dereference. -/
def removeHeadAllGo {β : Type} : List (Node β) → List (Node β) →
    Option (List (Node β))
  | [], start => some start
  | _ :: tRest, _ =>
      match tRest with
      | [] => none
      | _ :: sRest => removeHeadAllGo sRest tRest

/-- Mirrors the interior loop of `Remove` (`for (auto s = start; ...)`)
acting on the tail after the current node `s`: a node equal to `index`
is unlinked (and with `allFollowing` the whole remaining tail is
deleted via `s->next`); after unlinking one node the loop update steps
to the node after the deleted one. -/
def removeLoop {β : Type} (index : Nat) (allFollowing : Bool) :
    List (Node β) → List (Node β)
  | [] => []
  | y :: ys =>
      if y.index = index then
        if allFollowing then []
        else
          match ys with
          | [] => []
          | z :: zs => z :: removeLoop index allFollowing zs
      else y :: removeLoop index allFollowing ys

/-- Mirrors `Remove(start, index, allFollowing)` of UserInterface.cpp:
head match handled separately (with the buggy all-following loop
above), otherwise the interior loop walks the tail.  An empty list
leaves both branches without effect. -/
def remove {β : Type} (l : List (Node β)) (index : Nat)
    (allFollowing : Bool) : Option (List (Node β)) :=
  match l with
  | [] => some []
  | x :: xs =>
      if x.index = index then
        if allFollowing then removeHeadAllGo (x :: xs) (x :: xs)
        else some xs
      else some (x :: removeLoop index allFollowing xs)

/-- The interior loop never touches a list holding no node with the
searched index. -/
theorem removeLoop_absent {β : Type} (i : Nat) (b : Bool) :
    ∀ xs : List (Node β), (∀ n ∈ xs, n.index ≠ i) →
      removeLoop i b xs = xs := by
  intro xs
  induction xs with
  | nil => intro _; rfl
  | cons y ys ih =>
      intro h
      have hy : y.index ≠ i := h y (List.mem_cons_self y ys)
      rw [removeLoop.eq_def]
      simp [hy, ih (fun n hn => h n (List.mem_cons_of_mem y hn))]

/-! ### Claim C5: ranged removal -/

/-- C5: on a Tool collection with exactly the indices 0..4, removing
index 2 with allFollowing leaves exactly indices {0, 1} (the first two
nodes); and removing an absent index without allFollowing is a no-op,
not an error. -/
theorem c5_ranged_removal :
    (∀ l : List (Node ToolP), l.map (·.index) = [0, 1, 2, 3, 4] →
      remove l 2 true = some (l.take 2) ∧
      (l.take 2).map (·.index) = [0, 1]) ∧
    (∀ (l : List (Node ToolP)) (i : Nat), (∀ n ∈ l, n.index ≠ i) →
      remove l i false = some l) := by
  constructor
  · intro l hl
    rcases l with _ | ⟨a, _ | ⟨b, _ | ⟨c, _ | ⟨d, _ | ⟨e, _ | ⟨f, t⟩⟩⟩⟩⟩⟩ <;>
      simp at hl
    obtain ⟨ha, hb, hc, hd, he⟩ := hl
    constructor
    · simp [remove, removeLoop, ha, hb, hc]
    · simp [ha, hb]
  · intro l i h
    cases l with
    | nil => rfl
    | cons x xs =>
        have hx : x.index ≠ i := h x (List.mem_cons_self x xs)
        simp [remove, hx,
          removeLoop_absent i false xs
            (fun n hn => h n (List.mem_cons_of_mem x hn))]

def toolsFive : List (Node ToolP) :=
  [⟨10, 0, {}⟩, ⟨11, 1, {}⟩, ⟨12, 2, {}⟩, ⟨13, 3, {}⟩, ⟨14, 4, {}⟩]

/-- C5 witness: the theorem applied to a concrete five-tool collection
and to removal of the absent index 7. -/
theorem c5_ranged_removal_witness :
    remove toolsFive 2 true = some (toolsFive.take 2) ∧
    remove toolsFive 7 false = some toolsFive :=
  ⟨(c5_ranged_removal.1 toolsFive (by decide)).1,
   c5_ranged_removal.2 toolsFive 7 (by decide)⟩

/-! ### Claim C10: all-following trim needs an exact match -/

/-- C10: `Remove(l, i, allFollowing := true)` touches nothing unless a
node with index exactly `i` is present: with no such node the
collection is returned completely unchanged even if nodes with larger
indices exist.  Hence the end-of-array trim `RemoveTool(lastTool + 1,
true)` removes no stale tail when no node has index `lastTool + 1`. -/
theorem c10_trim_noop_when_absent :
    ∀ (l : List (Node ToolP)) (i : Nat), (∀ n ∈ l, n.index ≠ i) →
      remove l i true = some l := by
  intro l i h
  cases l with
  | nil => rfl
  | cons x xs =>
      have hx : x.index ≠ i := h x (List.mem_cons_self x xs)
      simp [remove, hx,
        removeLoop_absent i true xs
          (fun n hn => h n (List.mem_cons_of_mem x hn))]

def toolsGap : List (Node ToolP) := [⟨10, 0, {}⟩, ⟨11, 1, {}⟩, ⟨15, 5, {}⟩]

/-- C10 witness: a collection holding indices {0, 1, 5} is unchanged by
an all-following removal at the absent index 2, stale node 5
included. -/
theorem c10_trim_noop_when_absent_witness :
    remove toolsGap 2 true = some toolsGap :=
  c10_trim_noop_when_absent toolsGap 2 (by decide)

/-! ### GetOrCreate (UserInterface.cpp, template GetOrCreate) -/

/-- Mirrors the insertion walk of `GetOrCreate`: step over nodes whose
index is smaller, then link the new node before the first node whose
index is not smaller (or at the tail). -/
def insertWalk {β : Type} (n : Node β) : List (Node β) → List (Node β)
  | [] => [n]
  | y :: ys =>
      if y.index < n.index then y :: insertWalk n ys else n :: y :: ys

/-- Mirrors the insertion of `GetOrCreate`: prepend when the list is
empty or the head index is greater, otherwise walk from the head. -/
def insertNode {β : Type} (l : List (Node β)) (n : Node β) :
    List (Node β) :=
  match l with
  | [] => [n]
  | x :: xs => if n.index < x.index then n :: x :: xs else x :: insertWalk n xs

/-- Mirrors `GetOrCreate(start, index, create)`: linear scan for the
first node with the given index; if absent and `create`, allocate a
fresh node (`freshId` models the heap address handed out by `new`),
set its index and insert it at the sorted position.  Returns the
handle, the list and the next fresh id. -/
def getOrCreate {β : Type} (l : List (Node β)) (i : Nat) (create : Bool)
    (freshId : Nat) (defPayload : β) :
    Option (Node β) × List (Node β) × Nat :=
  match l.find? (fun n => n.index = i) with
  | some n => (some n, l, freshId)
  | none =>
      if create then
        (some ⟨freshId, i, defPayload⟩,
          insertNode l ⟨freshId, i, defPayload⟩, freshId + 1)
      else (none, l, freshId)

/-- The store: both sorted collections and the allocator counter. -/
structure OMStore where
  spindles : List (Node SpindleP)
  tools : List (Node ToolP)
  fresh : Nat
  deriving DecidableEq, Repr

/-- Mirrors `GetOrCreateTool(index, create)`. -/
def GetOrCreateTool (st : OMStore) (i : Nat) (create : Bool) :
    Option (Node ToolP) × OMStore :=
  match getOrCreate st.tools i create st.fresh {} with
  | (r, l, f) => (r, { st with tools := l, fresh := f })

/-- Mirrors `GetOrCreateSpindle(index, create)`. -/
def GetOrCreateSpindle (st : OMStore) (i : Nat) (create : Bool) :
    Option (Node SpindleP) × OMStore :=
  match getOrCreate st.spindles i create st.fresh {} with
  | (r, l, f) => (r, { st with spindles := l, fresh := f })

theorem find_insertWalk {β : Type} (n : Node β) (i : Nat)
    (hn : n.index = i) :
    ∀ l : List (Node β), (∀ m ∈ l, m.index ≠ i) →
      (insertWalk n l).find? (fun m => m.index = i) = some n := by
  intro l
  induction l with
  | nil =>
      intro _
      simp [insertWalk, List.find?, hn]
  | cons y ys ih =>
      intro h
      have hy : y.index ≠ i := h y (List.mem_cons_self y ys)
      rw [insertWalk]
      by_cases hlt : y.index < n.index
      · simp only [hlt, if_true]
        rw [List.find?]
        simp [hy, ih (fun m hm => h m (List.mem_cons_of_mem y hm))]
      · simp only [hlt, if_false]
        rw [List.find?]
        simp [hn]

theorem find_insertNode {β : Type} (l : List (Node β)) (n : Node β)
    (i : Nat) (hn : n.index = i) (h : ∀ m ∈ l, m.index ≠ i) :
    (insertNode l n).find? (fun m => m.index = i) = some n := by
  cases l with
  | nil => simp [insertNode, List.find?, hn]
  | cons x xs =>
      have hx : x.index ≠ i := h x (List.mem_cons_self x xs)
      rw [insertNode]
      by_cases hlt : n.index < x.index
      · simp only [hlt, if_true]
        rw [List.find?]
        simp [hn]
      · simp only [hlt, if_false]
        rw [List.find?]
        simp [hx,
          find_insertWalk n i hn xs
            (fun m hm => h m (List.mem_cons_of_mem x hm))]

theorem mem_insertWalk {β : Type} (n : Node β) :
    ∀ l (m : Node β), m ∈ insertWalk n l → m = n ∨ m ∈ l := by
  intro l
  induction l with
  | nil =>
      intro m hm
      simp [insertWalk] at hm
      exact Or.inl hm
  | cons y ys ih =>
      intro m hm
      rw [insertWalk] at hm
      by_cases hlt : y.index < n.index
      · simp only [hlt, if_true, List.mem_cons] at hm
        rcases hm with hm | hm
        · exact Or.inr (by simp [hm])
        · rcases ih m hm with hm' | hm'
          · exact Or.inl hm'
          · exact Or.inr (List.mem_cons_of_mem y hm')
      · simp only [hlt, if_false, List.mem_cons] at hm
        rcases hm with hm | hm | hm
        · exact Or.inl hm
        · exact Or.inr (by simp [hm])
        · exact Or.inr (List.mem_cons_of_mem y hm)

theorem insertWalk_sorted {β : Type} (n : Node β) :
    ∀ l : List (Node β),
      l.Pairwise (fun a b => a.index ≤ b.index) →
      (insertWalk n l).Pairwise (fun a b => a.index ≤ b.index) := by
  intro l
  induction l with
  | nil => intro _; simp [insertWalk]
  | cons y ys ih =>
      intro h
      rw [List.pairwise_cons] at h
      obtain ⟨hy, hys⟩ := h
      rw [insertWalk]
      by_cases hlt : y.index < n.index
      · simp only [hlt, if_true]
        rw [List.pairwise_cons]
        refine ⟨?_, ih hys⟩
        intro m hm
        rcases mem_insertWalk n ys m hm with hm' | hm'
        · rw [hm']; exact Nat.le_of_lt hlt
        · exact hy m hm'
      · simp only [hlt, if_false]
        rw [List.pairwise_cons]
        refine ⟨?_, List.pairwise_cons.mpr ⟨hy, hys⟩⟩
        intro m hm
        rcases List.mem_cons.mp hm with hm' | hm'
        · rw [hm']; exact Nat.le_of_not_lt hlt
        · exact Nat.le_trans (Nat.le_of_not_lt hlt) (hy m hm')

theorem insertNode_sorted {β : Type} (l : List (Node β)) (n : Node β)
    (h : l.Pairwise (fun a b => a.index ≤ b.index)) :
    (insertNode l n).Pairwise (fun a b => a.index ≤ b.index) := by
  cases l with
  | nil => simp [insertNode]
  | cons x xs =>
      rw [List.pairwise_cons] at h
      obtain ⟨hx, hxs⟩ := h
      rw [insertNode]
      by_cases hlt : n.index < x.index
      · simp only [hlt, if_true]
        rw [List.pairwise_cons]
        refine ⟨?_, List.pairwise_cons.mpr ⟨hx, hxs⟩⟩
        intro m hm
        rcases List.mem_cons.mp hm with hm' | hm'
        · rw [hm']; exact Nat.le_of_lt hlt
        · exact Nat.le_trans (Nat.le_of_lt hlt) (hx m hm')
      · simp only [hlt, if_false]
        rw [List.pairwise_cons]
        refine ⟨?_, insertWalk_sorted n xs hxs⟩
        intro m hm
        rcases mem_insertWalk n xs m hm with hm' | hm'
        · rw [hm']; exact Nat.le_of_not_lt hlt
        · exact hx m hm'

theorem filter_insertWalk {β : Type} (p : Node β → Bool) (n : Node β)
    (hp : p n = false) :
    ∀ l : List (Node β), (insertWalk n l).filter p = l.filter p := by
  intro l
  induction l with
  | nil => simp [insertWalk, hp]
  | cons y ys ih =>
      rw [insertWalk]
      by_cases hlt : y.index < n.index
      · simp only [hlt, if_true]
        simp [List.filter_cons, ih]
      · simp only [hlt, if_false]
        simp [List.filter_cons, hp]

theorem filter_insertNode {β : Type} (p : Node β → Bool) (n : Node β)
    (hp : p n = false) (l : List (Node β)) :
    (insertNode l n).filter p = l.filter p := by
  cases l with
  | nil => simp [insertNode, hp]
  | cons x xs =>
      rw [insertNode]
      by_cases hlt : n.index < x.index
      · simp only [hlt, if_true]
        simp [List.filter_cons, hp]
      · simp only [hlt, if_false]
        simp [List.filter_cons, filter_insertWalk p n hp xs]

/-! ### Claim C6: create idempotence and sorted insertion -/

/-- C6: `GetOrCreateTool` with create is idempotent (the second call
returns the same handle and the same store, inserting nothing);
creation preserves sortedness by index; insertion never disturbs the
pre-existing nodes (filtering the result to the old allocation ids
gives back exactly the old list); and interleaved creates of indices
5, 1, 3 from an empty store leave the sorted index list [1, 3, 5]. -/
theorem c6_create_idempotent_sorted :
    (∀ (st : OMStore) (i : Nat),
      GetOrCreateTool (GetOrCreateTool st i true).2 i true =
        GetOrCreateTool st i true) ∧
    (∀ (st : OMStore) (i : Nat),
      st.tools.Pairwise (fun a b => a.index ≤ b.index) →
      (GetOrCreateTool st i true).2.tools.Pairwise
        (fun a b => a.index ≤ b.index)) ∧
    (∀ (st : OMStore) (i : Nat),
      (∀ n ∈ st.tools, n.id < st.fresh) →
      (GetOrCreateTool st i true).2.tools.filter
        (fun n => n.id < st.fresh) = st.tools) ∧
    (GetOrCreateTool (GetOrCreateTool (GetOrCreateTool
        ⟨[], [], 0⟩ 5 true).2 1 true).2 3 true).2.tools.map (·.index)
      = [1, 3, 5] := by
  refine ⟨?_, ?_, ?_, by rfl⟩
  · intro st i
    unfold GetOrCreateTool getOrCreate
    cases hf : st.tools.find? (fun n => n.index = i) with
    | some n => simp [hf]
    | none =>
        have habs : ∀ m ∈ st.tools, m.index ≠ i := by
          intro m hm
          simpa using List.find?_eq_none.mp hf m hm
        simp [hf, find_insertNode st.tools ⟨st.fresh, i, {}⟩ i rfl habs]
  · intro st i hs
    unfold GetOrCreateTool getOrCreate
    cases hf : st.tools.find? (fun n => n.index = i) with
    | some n => simpa [hf] using hs
    | none =>
        simp only [hf]
        simpa using insertNode_sorted st.tools ⟨st.fresh, i, {}⟩ hs
  · intro st i hids
    unfold GetOrCreateTool getOrCreate
    cases hf : st.tools.find? (fun n => n.index = i) with
    | some n =>
        simp only [hf]
        simpa using List.filter_eq_self.mpr
          (fun a ha => decide_eq_true (hids a ha))
    | none =>
        simp only [hf]
        have hp : (fun n : Node ToolP => decide (n.id < st.fresh))
            ⟨st.fresh, i, {}⟩ = false := by simp
        simpa using
          (filter_insertNode _ ⟨st.fresh, i, {}⟩ hp st.tools).trans
            (List.filter_eq_self.mpr
              (fun a ha => decide_eq_true (hids a ha)))

def sortedToolStore : OMStore := { spindles := [], tools := toolsFive, fresh := 20 }

/-- C6 witness: the theorem applied to a concrete sorted store at
index 3. -/
theorem c6_create_idempotent_sorted_witness :
    GetOrCreateTool (GetOrCreateTool sortedToolStore 3 true).2 3 true =
      GetOrCreateTool sortedToolStore 3 true ∧
    (GetOrCreateTool sortedToolStore 3 true).2.tools.Pairwise
      (fun a b => a.index ≤ b.index) ∧
    (GetOrCreateTool sortedToolStore 3 true).2.tools.filter
      (fun n => n.id < sortedToolStore.fresh) = sortedToolStore.tools :=
  ⟨c6_create_idempotent_sorted.1 sortedToolStore 3,
   c6_create_idempotent_sorted.2.1 sortedToolStore 3 (by decide),
   c6_create_idempotent_sorted.2.2.1 sortedToolStore 3 (by decide)⟩

/-! ### SetSpindleTool (UserInterface.cpp) -/

/-- Write through a node handle: update the payload of the node(s)
carrying the given allocation id (ids are unique by construction, so
this is exactly the pointer-directed mutation of the source). -/
def updateNodeById {β : Type} (l : List (Node β)) (nid : Nat) (f : β → β) :
    List (Node β) :=
  l.map (fun n => if n.id = nid then { n with payload := f n.payload } else n)

/-- Clear every Tool back-reference to the spindle node with the given
id (the `toolIndex == -1` scan of `SetSpindleTool`). -/
def clearSpindleRefs (l : List (Node ToolP)) (sid : Nat) :
    List (Node ToolP) :=
  l.map (fun t =>
    if t.payload.spindle = some sid then
      { t with payload := { t.payload with spindle := none } }
    else t)

/-- Mirrors `SetSpindleTool(spindle, toolIndex)`: get or create the
spindle, store the forward reference, then either null out every Tool
back-reference to this spindle (`toolIndex == -1`) or get or create the
tool and point it back at the spindle.  The `int8_t` tool index is
converted to `size_t` the way C does (mod 2^32) before the tool
lookup. -/
def SetSpindleTool (st : OMStore) (spindle : Nat) (toolIndex : Int) :
    OMStore :=
  match GetOrCreateSpindle st spindle true with
  | (some sp, st1) =>
      let st2 : OMStore := { st1 with
        spindles := updateNodeById st1.spindles sp.id
          (fun p => { p with tool := toolIndex }) }
      if toolIndex = -1 then
        { st2 with tools := clearSpindleRefs st2.tools sp.id }
      else
        match GetOrCreateTool st2 (toolIndex % 4294967296).toNat true with
        | (some tn, st3) =>
            { st3 with
              tools := updateNodeById st3.tools tn.id
                (fun p => { p with spindle := some sp.id }) }
        | (none, st3) => st3
  | (none, st1) => st1

theorem mem_insertWalk_self {β : Type} (n : Node β) :
    ∀ l : List (Node β), n ∈ insertWalk n l := by
  intro l
  induction l with
  | nil => simp [insertWalk]
  | cons y ys ih =>
      rw [insertWalk]
      by_cases hlt : y.index < n.index
      · simp only [hlt, if_true]
        exact List.mem_cons_of_mem y ih
      · simp only [hlt, if_false]
        exact List.mem_cons_self n (y :: ys)

theorem mem_insertNode_self {β : Type} (l : List (Node β)) (n : Node β) :
    n ∈ insertNode l n := by
  cases l with
  | nil => simp [insertNode]
  | cons x xs =>
      rw [insertNode]
      by_cases hlt : n.index < x.index
      · simp only [hlt, if_true]
        exact List.mem_cons_self n (x :: xs)
      · simp only [hlt, if_false]
        exact List.mem_cons_of_mem x (mem_insertWalk_self n xs)

/-- A create-mode `getOrCreate` always returns a handle to a node with
the requested index that lives in the returned list. -/
theorem getOrCreate_create_some {β : Type} (l : List (Node β))
    (i fr : Nat) (d : β) :
    ∃ (n : Node β) (l' : List (Node β)) (f' : Nat),
      getOrCreate l i true fr d = (some n, l', f') ∧
      n.index = i ∧ n ∈ l' := by
  cases hf : l.find? (fun n => n.index = i) with
  | some n =>
      refine ⟨n, l, fr, by simp [getOrCreate, hf], ?_,
        List.mem_of_find?_eq_some hf⟩
      simpa using List.find?_some hf
  | none =>
      exact ⟨⟨fr, i, d⟩, insertNode l ⟨fr, i, d⟩, fr + 1,
        by simp [getOrCreate, hf], rfl, mem_insertNode_self l ⟨fr, i, d⟩⟩

theorem mem_updateNodeById {β : Type} (l : List (Node β)) (n : Node β)
    (hn : n ∈ l) (f : β → β) :
    ({ n with payload := f n.payload } : Node β) ∈
      updateNodeById l n.id f := by
  unfold updateNodeById
  have h := List.mem_map_of_mem
    (fun m : Node β =>
      if m.id = n.id then { m with payload := f m.payload } else m) hn
  simpa using h

/-! ### Claim C8: spindle/tool cross references -/

/-- The mutual-consistency predicate of the claim: a Tool points back
at a Spindle exactly when that Spindle references it (so no second
Tool can keep a stale back-pointer). -/
def MutualConsistent (st : OMStore) : Prop :=
  ∀ sp ∈ st.spindles, ∀ t ∈ st.tools,
    (t.payload.spindle = some sp.id ↔ (t.index : Int) = sp.payload.tool)

def emptyStore : OMStore := ⟨[], [], 0⟩

/-- C8, counterexample.  `SetSpindleTool(0, 1)` followed by
`SetSpindleTool(0, 2)` leaves Tool 1 still pointing at spindle 0 while
the spindle references Tool 2: the code only breaks back-references on
an explicit clear (-1), so the claimed two-sided consistency fails
after a direct reassignment. -/
theorem c8_spindle_tool_cex :
    ¬ MutualConsistent (SetSpindleTool (SetSpindleTool emptyStore 0 1) 0 2) := by
  intro h
  have h1 := h ⟨0, 0, ⟨2⟩⟩ (by decide) ⟨1, 1, ⟨-1, -1, some 0⟩⟩ (by decide)
  exact absurd (h1.mp rfl) (by decide)

/-- C8, amended: `SetSpindleTool(spindle, toolIndex)` updates the
forward reference and the referenced back-reference together: the
spindle records `toolIndex`; when `toolIndex` is a valid index the Tool
with that index points back at the spindle; and when `toolIndex = -1`
no Tool back-reference to that spindle survives.  (A Tool previously
paired with the spindle keeps a stale back-pointer when the spindle is
reassigned directly to another tool, as the counterexample shows, so
two-sided exclusivity holds only after a clear.) -/
theorem c8_spindle_tool_amended :
    ∀ (st : OMStore) (spindle : Nat) (toolIndex : Int),
      ∃ s ∈ (SetSpindleTool st spindle toolIndex).spindles,
        s.index = spindle ∧ s.payload.tool = toolIndex ∧
        (toolIndex = -1 →
          ∀ tl ∈ (SetSpindleTool st spindle toolIndex).tools,
            tl.payload.spindle ≠ some s.id) ∧
        (0 ≤ toolIndex → toolIndex < 4294967296 →
          ∃ tl ∈ (SetSpindleTool st spindle toolIndex).tools,
            (tl.index : Int) = toolIndex ∧
            tl.payload.spindle = some s.id) := by
  intro st spindle toolIndex
  obtain ⟨sp, l', f', heq, hidx, hmem⟩ :=
    getOrCreate_create_some st.spindles spindle st.fresh {}
  have hgs : GetOrCreateSpindle st spindle true =
      (some sp, { st with spindles := l', fresh := f' }) := by
    unfold GetOrCreateSpindle
    rw [heq]
  by_cases htneg : toolIndex = -1
  · have hset : SetSpindleTool st spindle toolIndex =
        { spindles := updateNodeById l' sp.id
            (fun p => { p with tool := toolIndex }),
          tools := clearSpindleRefs st.tools sp.id,
          fresh := f' } := by
      unfold SetSpindleTool
      rw [hgs]
      simp [htneg]
    have hspindles : (SetSpindleTool st spindle toolIndex).spindles =
        updateNodeById l' sp.id (fun p => { p with tool := toolIndex }) := by
      rw [hset]
    have htools : (SetSpindleTool st spindle toolIndex).tools =
        clearSpindleRefs st.tools sp.id := by
      rw [hset]
    refine ⟨{ sp with payload := { sp.payload with tool := toolIndex } },
      ?_, hidx, rfl, ?_, ?_⟩
    · rw [hspindles]
      exact mem_updateNodeById l' sp hmem
        (fun p => { p with tool := toolIndex })
    · intro _ tl htl
      rw [htools] at htl
      obtain ⟨t0, ht0, himg⟩ := List.mem_map.mp htl
      by_cases hc : t0.payload.spindle = some sp.id
      · rw [← himg]
        simp [hc]
      · rw [← himg]
        simp [hc]
    · intro h0 _
      rw [htneg] at h0
      exact absurd h0 (by decide)
  · obtain ⟨tn, lt', ft', heqT, hidxT, hmemT⟩ :=
      getOrCreate_create_some
        (st.tools) ((toolIndex % 4294967296).toNat) f' ({} : ToolP)
    have hgt : GetOrCreateTool
        { spindles := updateNodeById l' sp.id
            (fun p => { p with tool := toolIndex }),
          tools := st.tools, fresh := f' }
        (toolIndex % 4294967296).toNat true =
        (some tn,
          { spindles := updateNodeById l' sp.id
              (fun p => { p with tool := toolIndex }),
            tools := lt', fresh := ft' }) := by
      unfold GetOrCreateTool
      rw [heqT]
    have hset : SetSpindleTool st spindle toolIndex =
        { spindles := updateNodeById l' sp.id
            (fun p => { p with tool := toolIndex }),
          tools := updateNodeById lt' tn.id
            (fun p => { p with spindle := some sp.id }),
          fresh := ft' } := by
      unfold SetSpindleTool
      rw [hgs]
      simp only [htneg, if_false]
      rw [hgt]
    have hspindles : (SetSpindleTool st spindle toolIndex).spindles =
        updateNodeById l' sp.id (fun p => { p with tool := toolIndex }) := by
      rw [hset]
    have htools : (SetSpindleTool st spindle toolIndex).tools =
        updateNodeById lt' tn.id
          (fun p => { p with spindle := some sp.id }) := by
      rw [hset]
    refine ⟨{ sp with payload := { sp.payload with tool := toolIndex } },
      ?_, hidx, rfl, fun hc => absurd hc htneg, ?_⟩
    · rw [hspindles]
      exact mem_updateNodeById l' sp hmem
        (fun p => { p with tool := toolIndex })
    · intro h0 hlt
      refine ⟨{ tn with payload :=
          { tn.payload with spindle := some sp.id } }, ?_, ?_, rfl⟩
      · rw [htools]
        exact mem_updateNodeById lt' tn hmemT
          (fun p => { p with spindle := some sp.id })
      · show ((tn.index : Nat) : Int) = toolIndex
        rw [hidxT, Int.toNat_of_nonneg (Int.emod_nonneg toolIndex (by decide)),
          Int.emod_eq_of_lt h0 hlt]

/-- C8 witness: the amended theorem at a concrete clear operation. -/
theorem c8_spindle_tool_witness :
    ∃ s ∈ (SetSpindleTool emptyStore 0 (-1)).spindles,
      s.index = 0 ∧ s.payload.tool = -1 ∧
      ∀ tl ∈ (SetSpindleTool emptyStore 0 (-1)).tools,
        tl.payload.spindle ≠ some s.id := by
  obtain ⟨s, hmem, hidx, htool, hclear, _⟩ :=
    c8_spindle_tool_amended emptyStore 0 (-1)
  exact ⟨s, hmem, hidx, htool, hclear rfl⟩

/-! ### Axis store (UserInterface.cpp, static Axis axes[]) -/

/-- Axis entry of the fixed-size axis array (`static Axis axes[]`, ten
entries, array position = remote index).  The float fields (babystep,
workplaceOffsets) and the display-slot fields are never read by the
operations under verification and are omitted. -/
structure AxisE where
  letter : Char
  homed : Bool
  visible : Bool
  deriving DecidableEq, Repr

/-- `MaxTotalAxes = ARRAY_SIZE(axisNames) = 10`. -/
def MaxTotalAxes : Nat := 10

/-- Update the entry at one array position, mirroring `axes[index].f = v`. -/
def updAt {α : Type} : List α → Nat → (α → α) → List α
  | [], _, _ => []
  | a :: as, 0, f => f a :: as
  | a :: as, i + 1, f => a :: updAt as i f

/-- Mirrors `SetAxisLetter`: guarded by `index < MaxTotalAxes`. -/
def SetAxisLetter (axes : List AxisE) (i : Nat) (c : Char) : List AxisE :=
  if i < MaxTotalAxes then updAt axes i (fun a => { a with letter := c })
  else axes

/-- Mirrors `SetAxisVisible`: guarded by `index < MaxTotalAxes`. -/
def SetAxisVisible (axes : List AxisE) (i : Nat) (v : Bool) : List AxisE :=
  if i < MaxTotalAxes then updAt axes i (fun a => { a with visible := v })
  else axes

/-- Mirrors `UpdateHomedStatus`: returns unchanged when
`axis >= MaxTotalAxes`, else stores the homed flag. -/
def UpdateHomedStatus (axes : List AxisE) (i : Nat) (hm : Bool) :
    List AxisE :=
  if i < MaxTotalAxes then updAt axes i (fun a => { a with homed := hm })
  else axes

/-- Walk the array with its position counter, marking matching
positions invisible. -/
def removeAxisGo (i : Nat) (allFollowing : Bool) :
    Nat → List AxisE → List AxisE
  | _, [] => []
  | j, a :: as =>
      (if (if allFollowing then i ≤ j else j = i) then
        { a with visible := false }
      else a) :: removeAxisGo i allFollowing (j + 1) as

/-- Modelled from the spec: the body of `OM::RemoveAxis`
(ObjectModel.cpp) is not among the source files; only its declaration
(ObjectModel.hpp) and its caller (the `move:axes^` branch of
`ProcessArrayEnd`) are.  Per the spec the axis array is fixed-capacity
and entries are "never removed individually — only marked invisible",
so `RemoveAxis(index, allFollowing)` marks the axis at `index` (and,
with allFollowing, every axis at a greater position) invisible. -/
def RemoveAxis (axes : List AxisE) (i : Nat) (allFollowing : Bool) :
    List AxisE :=
  removeAxisGo i allFollowing 0 axes

/-- The axis-store operations reachable from the wire protocol. -/
inductive AxisOp where
  | removeAxis (i : Nat) (allFollowing : Bool)
  | setLetter (i : Nat) (c : Char)
  | setVisible (i : Nat) (v : Bool)
  | setHomed (i : Nat) (hm : Bool)

def applyAxisOp (axes : List AxisE) : AxisOp → List AxisE
  | .removeAxis i b => RemoveAxis axes i b
  | .setLetter i c => SetAxisLetter axes i c
  | .setVisible i v => SetAxisVisible axes i v
  | .setHomed i hm => UpdateHomedStatus axes i hm

theorem updAt_length {α : Type} :
    ∀ (l : List α) (i : Nat) (f : α → α), (updAt l i f).length = l.length := by
  intro l
  induction l with
  | nil => intro i f; rfl
  | cons a as ih =>
      intro i f
      cases i with
      | zero => rfl
      | succ j => simp [updAt, ih]

theorem removeAxisGo_length (i : Nat) (b : Bool) :
    ∀ (l : List AxisE) (j : Nat),
      (removeAxisGo i b j l).length = l.length := by
  intro l
  induction l with
  | nil => intro j; rfl
  | cons a as ih => intro j; simp [removeAxisGo, ih]

theorem removeAxisGo_forall₂ (i : Nat) (b : Bool) :
    ∀ (l : List AxisE) (j : Nat),
      List.Forall₂ (fun a a' => a'.letter = a.letter ∧ a'.homed = a.homed)
        l (removeAxisGo i b j l) := by
  intro l
  induction l with
  | nil => intro j; exact List.Forall₂.nil
  | cons a as ih =>
      intro j
      refine List.Forall₂.cons ?_ (ih (j + 1))
      by_cases hc : (if b then i ≤ j else j = i)
      · simp [removeAxisGo, hc]
      · simp [removeAxisGo, hc]

/-! ### Claim C9: axes are never removed -/

/-- C9: no axis-store operation removes an entry — every operation,
the array-end trim `RemoveAxis` of a shrunken `move:axes^` array
included, preserves the array length; and `RemoveAxis` changes at
most the visibility flag of each entry (letter and homed state are
untouched, the entry itself stays). -/
theorem c9_axes_never_removed :
    (∀ (axes : List AxisE) (op : AxisOp),
      (applyAxisOp axes op).length = axes.length) ∧
    (∀ (axes : List AxisE) (i : Nat) (b : Bool),
      List.Forall₂ (fun a a' => a'.letter = a.letter ∧ a'.homed = a.homed)
        axes (RemoveAxis axes i b)) := by
  constructor
  · intro axes op
    cases op with
    | removeAxis i b => exact removeAxisGo_length i b axes 0
    | setLetter i c =>
        show (SetAxisLetter axes i c).length = axes.length
        unfold SetAxisLetter
        by_cases hi : i < MaxTotalAxes <;> simp [hi, updAt_length]
    | setVisible i v =>
        show (SetAxisVisible axes i v).length = axes.length
        unfold SetAxisVisible
        by_cases hi : i < MaxTotalAxes <;> simp [hi, updAt_length]
    | setHomed i hm =>
        show (UpdateHomedStatus axes i hm).length = axes.length
        unfold UpdateHomedStatus
        by_cases hi : i < MaxTotalAxes <;> simp [hi, updAt_length]
  · intro axes i b
    exact removeAxisGo_forall₂ i b axes 0

/-! ### Field-path dispatcher: case-insensitive comparison
(PanelDue.cpp, bsearch over fieldTable with strcasecmp) -/

/-- ASCII `tolower` on a character code, as C applies it: fold the
uppercase letters (65..90) onto lowercase (97..122). -/
def tolowerN (n : Nat) : Nat := if 65 ≤ n ∧ n ≤ 90 then n + 32 else n

/-- The lowered code of one character. -/
def charLower (c : Char) : Nat := tolowerN c.toNat

/-- Comparison of two lowered code lists, mirroring the byte-by-byte
walk of `strcasecmp` (the empty list plays the `NUL` terminator). -/
def natCmp : List Nat → List Nat → Int
  | [], [] => 0
  | [], d :: _ => -(d : Int)
  | c :: _, [] => (c : Int)
  | c :: cs, d :: ds =>
      if c = d then natCmp cs ds else (c : Int) - (d : Int)

/-- Mirrors C `strcasecmp` on character lists: compare lowered
characters one by one, returning the difference at the first mismatch
(comparison against the terminator when one string is a prefix of the
other). -/
def strcasecmpL : List Char → List Char → Int
  | [], [] => 0
  | [], d :: _ => -(charLower d : Int)
  | c :: _, [] => (charLower c : Int)
  | c :: cs, d :: ds =>
      if charLower c = charLower d then strcasecmpL cs ds
      else (charLower c : Int) - (charLower d : Int)

/-- `strcasecmp` on strings. -/
def strcasecmp (a b : String) : Int := strcasecmpL a.toList b.toList

/-- The lowered code list of a string. -/
def lowerOf (s : String) : List Nat := s.toList.map charLower

theorem strcasecmpL_eq_natCmp :
    ∀ a b : List Char,
      strcasecmpL a b = natCmp (a.map charLower) (b.map charLower) := by
  intro a
  induction a with
  | nil => intro b; cases b <;> rfl
  | cons c cs ih =>
      intro b
      cases b with
      | nil => rfl
      | cons d ds =>
          rw [strcasecmpL, List.map_cons, List.map_cons, natCmp]
          by_cases hcd : charLower c = charLower d
          · simp [hcd, ih]
          · simp [hcd]

theorem strcasecmp_eq_natCmp (a b : String) :
    strcasecmp a b = natCmp (lowerOf a) (lowerOf b) :=
  strcasecmpL_eq_natCmp a.toList b.toList

theorem natCmp_self : ∀ a : List Nat, natCmp a a = 0 := by
  intro a
  induction a with
  | nil => rfl
  | cons c cs ih => simp [natCmp, ih]

theorem natCmp_eq_zero :
    ∀ {a b : List Nat}, (∀ x ∈ a, 0 < x) → (∀ x ∈ b, 0 < x) →
      (natCmp a b = 0 ↔ a = b) := by
  intro a
  induction a with
  | nil =>
      intro b _ hb
      cases b with
      | nil => simp [natCmp]
      | cons d ds =>
          have hd : 0 < d := hb d (List.mem_cons_self d ds)
          rw [natCmp]
          constructor
          · intro h; exfalso; omega
          · intro h; exact absurd h (by simp)
  | cons c cs ih =>
      intro b ha hb
      cases b with
      | nil =>
          have hc : 0 < c := ha c (List.mem_cons_self c cs)
          rw [natCmp]
          constructor
          · intro h; exfalso; omega
          · intro h; exact absurd h (by simp)
      | cons d ds =>
          have hcs : ∀ x ∈ cs, 0 < x :=
            fun x hx => ha x (List.mem_cons_of_mem c hx)
          have hds : ∀ x ∈ ds, 0 < x :=
            fun x hx => hb x (List.mem_cons_of_mem d hx)
          by_cases hcd : c = d
          · subst hcd
            simp [natCmp, ih hcs hds]
          · simp [natCmp, hcd, sub_eq_zero]

theorem natCmp_trans_neg :
    ∀ (a b c : List Nat), natCmp a b < 0 → natCmp b c < 0 →
      natCmp a c < 0 := by
  intro a
  induction a with
  | nil =>
      intro b c hab hbc
      cases b with
      | nil => rw [natCmp] at hab; omega
      | cons y ys =>
          have hy : 0 < y := by rw [natCmp] at hab; omega
          cases c with
          | nil =>
              exfalso
              cases ys with
              | nil => rw [natCmp] at hbc; omega
              | cons y2 ys2 => rw [natCmp] at hbc; omega
          | cons z zs =>
              rw [natCmp]
              by_cases hyz : y = z
              · subst hyz; omega
              · rw [natCmp, if_neg hyz] at hbc; omega
  | cons x xs ih =>
      intro b c hab hbc
      cases b with
      | nil => rw [natCmp] at hab; omega
      | cons y ys =>
          cases c with
          | nil =>
              exfalso
              cases ys with
              | nil => rw [natCmp] at hbc; omega
              | cons y2 ys2 => rw [natCmp] at hbc; omega
          | cons z zs =>
              by_cases hxy : x = y
              · subst hxy
                by_cases hxz : x = z
                · subst hxz
                  rw [natCmp, if_pos rfl] at hab hbc ⊢
                  exact ih ys zs hab hbc
                · rw [natCmp, if_neg hxz] at hbc ⊢
                  exact hbc
              · by_cases hyz : y = z
                · subst hyz
                  rw [natCmp, if_neg hxy] at hab ⊢
                  exact hab
                · rw [natCmp, if_neg hxy] at hab
                  rw [natCmp, if_neg hyz] at hbc
                  have hxz : x ≠ z := by omega
                  rw [natCmp, if_neg hxz]
                  omega

/-- One entry of the static field-path table. -/
structure FieldTableEntry where
  rde : ReceivedDataEvent
  varName : String
  deriving DecidableEq, Repr

/-- The lowered key of a table entry. -/
def entryKey (e : FieldTableEntry) : List Nat := lowerOf e.varName

set_option maxHeartbeats 2000000 in
/-- The static field-path table in its declared (pre-sort) order,
transcribed from `fieldTable` of the source. -/
def fieldTable : List FieldTableEntry :=
  [⟨rcvKey, "key"⟩,
   ⟨rcvLiveFansActualValue, "fans^:actualValue"⟩,
   ⟨rcvLiveHeatHeatersActive, "heat:heaters^:active"⟩,
   ⟨rcvLiveHeatHeatersCurrent, "heat:heaters^:current"⟩,
   ⟨rcvLiveHeatHeatersStandby, "heat:heaters^:standby"⟩,
   ⟨rcvLiveHeatHeatersState, "heat:heaters^:state"⟩,
   ⟨rcvLiveJobFilePosition, "job:filePosition"⟩,
   ⟨rcvLiveJobTimesLeftFilament, "job:timesLeft:filament"⟩,
   ⟨rcvLiveJobTimesLeftFile, "job:timesLeft:file"⟩,
   ⟨rcvLiveJobTimesLeftLayer, "job:timesLeft:layer"⟩,
   ⟨rcvLiveMoveAxesMachinePosition, "move:axes^:machinePosition"⟩,
   ⟨rcvLiveMoveAxesUserPosition, "move:axes^:userPosition"⟩,
   ⟨rcvLiveSensorsProbeValue, "sensors:probes^:value^"⟩,
   ⟨rcvLiveSeqsBoards, "seqs:boards"⟩,
   ⟨rcvLiveSeqsDirectories, "seqs:directories"⟩,
   ⟨rcvLiveSeqsFans, "seqs:fans"⟩,
   ⟨rcvLiveSeqsHeat, "seqs:heat"⟩,
   ⟨rcvLiveSeqsInputs, "seqs:inputs"⟩,
   ⟨rcvLiveSeqsJob, "seqs:job"⟩,
   ⟨rcvLiveSeqsMove, "seqs:move"⟩,
   ⟨rcvLiveSeqsNetwork, "seqs:network"⟩,
   ⟨rcvLiveSeqsReply, "seqs:reply"⟩,
   ⟨rcvLiveSeqsScanner, "seqs:scanner"⟩,
   ⟨rcvLiveSeqsSensors, "seqs:sensors"⟩,
   ⟨rcvLiveSeqsSpindles, "seqs:spindles"⟩,
   ⟨rcvLiveSeqsState, "seqs:state"⟩,
   ⟨rcvLiveSeqsTools, "seqs:tools"⟩,
   ⟨rcvLiveSeqsVolumes, "seqs:volumes"⟩,
   ⟨rcvLiveSpindlesCurrent, "spindles^:current"⟩,
   ⟨rcvLiveStateCurrentTool, "state:currentTool"⟩,
   ⟨rcvLiveStateStatus, "state:status"⟩,
   ⟨rcvLiveStateUptime, "state:upTime"⟩,
   ⟨rcvLiveToolsState, "tools^:state"⟩,
   ⟨rcvBoardsFirmwareName, "boards^:firmwareName"⟩,
   ⟨rcvHeatBedHeaters, "heat:bedHeaters^"⟩,
   ⟨rcvHeatChamberHeaters, "heat:chamberHeaters^"⟩,
   ⟨rcvJobFileFilename, "job:file:fileName"⟩,
   ⟨rcvJobFileSize, "job:file:size"⟩,
   ⟨rcvMoveAxesBabystep, "move:axes^:babystep"⟩,
   ⟨rcvMoveAxesHomed, "move:axes^:homed"⟩,
   ⟨rcvMoveAxesLetter, "move:axes^:letter"⟩,
   ⟨rcvMoveAxesVisible, "move:axes^:visible"⟩,
   ⟨rcvMoveAxesWorkplaceOffsets, "move:axes^:workplaceOffsets^"⟩,
   ⟨rcvMoveExtrudersFactor, "move:extruders^:factor"⟩,
   ⟨rcvMoveKinematicsName, "move:kinematics:name"⟩,
   ⟨rcvMoveSpeedFactor, "move:speedFactor"⟩,
   ⟨rcvMoveWorkplaceNumber, "move:workplaceNumber"⟩,
   ⟨rcvNetworkName, "network:name"⟩,
   ⟨rcvNetworkInterfacesActualIP, "network:interfaces^:actualIP"⟩,
   ⟨rcvSpindlesActive, "spindles^:active"⟩,
   ⟨rcvSpindlesMax, "spindles^:max"⟩,
   ⟨rcvSpindlesTool, "spindles^:tool"⟩,
   ⟨rcvStateMessageBox, "state:messageBox"⟩,
   ⟨rcvStateMessageBoxAxisControls, "state:messageBox:axisControls"⟩,
   ⟨rcvStateMessageBoxMessage, "state:messageBox:message"⟩,
   ⟨rcvStateMessageBoxMode, "state:messageBox:mode"⟩,
   ⟨rcvStateMessageBoxSeq, "state:messageBox:seq"⟩,
   ⟨rcvStateMessageBoxTimeout, "state:messageBox:timeout"⟩,
   ⟨rcvStateMessageBoxTitle, "state:messageBox:title"⟩,
   ⟨rcvToolsExtruders, "tools^:extruders^"⟩,
   ⟨rcvToolsHeaters, "tools^:heaters^"⟩,
   ⟨rcvToolsNumber, "tools^:number"⟩,
   ⟨rcvToolsOffsets, "tools^:offsets^"⟩,
   ⟨rcvVolumesMounted, "volumes^:mounted"⟩,
   ⟨rcvM20Dir, "dir"⟩,
   ⟨rcvM20Err, "err"⟩,
   ⟨rcvM20Files, "files^"⟩,
   ⟨rcvM36Filament, "filament^"⟩,
   ⟨rcvM36Filename, "fileName"⟩,
   ⟨rcvM36GeneratedBy, "generatedBy"⟩,
   ⟨rcvM36Height, "height"⟩,
   ⟨rcvM36LastModified, "lastModified"⟩,
   ⟨rcvM36LayerHeight, "layerHeight"⟩,
   ⟨rcvM36PrintTime, "printTime"⟩,
   ⟨rcvM36SimulatedTime, "simulatedTime"⟩,
   ⟨rcvM36Size, "size"⟩,
   ⟨rcvPushMessage, "message"⟩,
   ⟨rcvPushResponse, "resp"⟩,
   ⟨rcvPushSeq, "seq"⟩,
   ⟨rcvPushBeepDuration, "beep_length"⟩,
   ⟨rcvPushBeepFrequency, "beep_freq"⟩]

def defEntry : FieldTableEntry := ⟨rcvUnknown, ""⟩

/-- Mirrors the `bsearch` loop of the source: binary search between
`low` (inclusive) and `high` (exclusive), with the final single-probe
check at `low` after the loop. -/
def bsearchGo (table : List FieldTableEntry) (key : String)
    (low high : Nat) : ReceivedDataEvent :=
  if h : low < high then
    if strcasecmp key
        ((table.getD ((high - low) / 2 + low) defEntry).varName) = 0 then
      (table.getD ((high - low) / 2 + low) defEntry).rde
    else if strcasecmp key
        ((table.getD ((high - low) / 2 + low) defEntry).varName) > 0 then
      bsearchGo table key ((high - low) / 2 + low + 1) high
    else
      bsearchGo table key low ((high - low) / 2 + low)
  else
    if low < table.length ∧
        strcasecmp key ((table.getD low defEntry).varName) = 0 then
      (table.getD low defEntry).rde
    else rcvUnknown
termination_by high - low
decreasing_by
  · omega
  · omega

/-- Mirrors `bsearch(table, numElems, key)` with `numElems` the table
length. -/
def bsearch (table : List FieldTableEntry) (key : String) :
    ReceivedDataEvent :=
  bsearchGo table key 0 table.length

/-- In a strictly sorted table, the comparison of a key that matches
position `i` against any position `j` tells on which side of `j` the
index `i` lies. -/
theorem cmp_position (t : List FieldTableEntry) (k : String)
    (hsort : t.Pairwise (fun e1 e2 => natCmp (entryKey e1) (entryKey e2) < 0))
    (hposK : ∀ x ∈ lowerOf k, 0 < x)
    (hposT : ∀ e ∈ t, ∀ x ∈ entryKey e, 0 < x)
    (i : Nat) (hi : i < t.length)
    (hzero : natCmp (lowerOf k) (entryKey t[i]) = 0)
    (j : Nat) (hj : j < t.length) :
    (natCmp (lowerOf k) (entryKey t[j]) < 0 → i < j) ∧
    (natCmp (lowerOf k) (entryKey t[j]) = 0 → i = j) ∧
    (0 < natCmp (lowerOf k) (entryKey t[j]) → j < i) := by
  have hpair := List.pairwise_iff_getElem.mp hsort
  have hkey : lowerOf k = entryKey t[i] :=
    (natCmp_eq_zero hposK (hposT _ (List.getElem_mem hi))).mp hzero
  rcases Nat.lt_trichotomy i j with hij | hij | hij
  · have hlt : natCmp (entryKey t[i]) (entryKey t[j]) < 0 :=
      hpair i j hi hj hij
    rw [← hkey] at hlt
    exact ⟨fun _ => hij, fun h0 => by omega, fun hgt => by omega⟩
  · subst hij
    rw [← hkey] at hzero ⊢
    exact ⟨fun h => by omega, fun _ => rfl, fun h => by omega⟩
  · have hlt : natCmp (entryKey t[j]) (entryKey t[i]) < 0 :=
      hpair j i hj hi hij
    rw [← hkey] at hlt
    constructor
    · intro hneg
      exfalso
      have := natCmp_trans_neg _ _ _ hlt hneg
      rw [natCmp_self] at this
      omega
    constructor
    · intro h0
      exfalso
      have heq2 : lowerOf k = entryKey t[j] :=
        (natCmp_eq_zero hposK (hposT _ (List.getElem_mem hj))).mp h0
      rw [← heq2] at hlt
      rw [natCmp_self] at hlt
      omega
    · intro _
      exact hij

/-- Binary search finds the code of any key present in a strictly
sorted table. -/
theorem bsearchGo_finds (t : List FieldTableEntry) (k : String)
    (hsort : t.Pairwise (fun e1 e2 => natCmp (entryKey e1) (entryKey e2) < 0))
    (hposK : ∀ x ∈ lowerOf k, 0 < x)
    (hposT : ∀ e ∈ t, ∀ x ∈ entryKey e, 0 < x)
    (i : Nat) (hi : i < t.length)
    (hzero : natCmp (lowerOf k) (entryKey t[i]) = 0) :
    ∀ (fuel low high : Nat), high - low ≤ fuel →
      low ≤ i → i < high → high ≤ t.length →
      bsearchGo t k low high = t[i].rde := by
  intro fuel
  induction fuel with
  | zero => intro low high h1 h2 h3 h4; omega
  | succ f ih =>
      intro low high h1 h2 h3 h4
      have hlh : low < high := by omega
      have hmidlen : (high - low) / 2 + low < t.length := by omega
      have hgetD : t.getD ((high - low) / 2 + low) defEntry =
          t[(high - low) / 2 + low] :=
        List.getD_eq_getElem t defEntry hmidlen
      have hcmpform :
          strcasecmp k ((t.getD ((high - low) / 2 + low) defEntry).varName) =
            natCmp (lowerOf k) (entryKey t[(high - low) / 2 + low]) := by
        rw [hgetD, strcasecmp_eq_natCmp]
        rfl
      have hpos := cmp_position t k hsort hposK hposT i hi hzero
        ((high - low) / 2 + low) hmidlen
      rw [bsearchGo, dif_pos hlh]
      rcases lt_trichotomy
        (natCmp (lowerOf k) (entryKey t[(high - low) / 2 + low])) 0 with
        hc | hc | hc
      · rw [if_neg (by rw [hcmpform]; omega),
          if_neg (by rw [hcmpform]; omega)]
        exact ih low ((high - low) / 2 + low) (by omega) h2 (hpos.1 hc)
          (by omega)
      · rw [if_pos (by rw [hcmpform]; omega)]
        have hieq : i = (high - low) / 2 + low := hpos.2.1 hc
        subst hieq
        rw [hgetD]
      · rw [if_neg (by rw [hcmpform]; omega),
          if_pos (by rw [hcmpform]; omega)]
        have hmi : (high - low) / 2 + low < i := hpos.2.2 hc
        exact ih ((high - low) / 2 + low + 1) high (by omega) (by omega) h3 h4

/-- Binary search answers the sentinel for a key matching no table
entry (no sortedness needed). -/
theorem bsearchGo_not_found (t : List FieldTableEntry) (k : String)
    (habs : ∀ e ∈ t, strcasecmp k e.varName ≠ 0) :
    ∀ (fuel low high : Nat), high - low ≤ fuel → high ≤ t.length →
      bsearchGo t k low high = rcvUnknown := by
  intro fuel
  induction fuel with
  | zero =>
      intro low high h1 h2
      have hnl : ¬low < high := by omega
      rw [bsearchGo, dif_neg hnl, if_neg]
      rintro ⟨hl, hcmp⟩
      rw [List.getD_eq_getElem t defEntry hl] at hcmp
      exact habs _ (List.getElem_mem hl) hcmp
  | succ f ih =>
      intro low high h1 h2
      by_cases hlh : low < high
      · have hmidlen : (high - low) / 2 + low < t.length := by omega
        have hne : strcasecmp k
            ((t.getD ((high - low) / 2 + low) defEntry).varName) ≠ 0 := by
          rw [List.getD_eq_getElem t defEntry hmidlen]
          exact habs _ (List.getElem_mem hmidlen)
        rw [bsearchGo, dif_pos hlh, if_neg hne]
        by_cases hgt : strcasecmp k
            ((t.getD ((high - low) / 2 + low) defEntry).varName) > 0
        · rw [if_pos hgt]
          exact ih _ _ (by omega) h2
        · rw [if_neg hgt]
          exact ih _ _ (by omega) (by omega)
      · rw [bsearchGo, dif_neg hlh, if_neg]
        rintro ⟨hl, hcmp⟩
        rw [List.getD_eq_getElem t defEntry hl] at hcmp
        exact habs _ (List.getElem_mem hl) hcmp

/-- No key of the static table contains a NUL character (its lowered
codes are all positive). -/
theorem fieldTable_keys_pos : ∀ e ∈ fieldTable, ∀ x ∈ entryKey e, 0 < x := by
  decide

/-! ### Claim C4: dispatch after the startup sort -/

/-- C4: for ANY permutation `t` of the declared field table — i.e. any
pre-sort declaration order — that is sorted by case-insensitive string
comparison (the post-condition of the single startup `qsort` pass with
`strcasecmp`, strict since the keys are pairwise distinct), the binary
search resolves every declared pattern to its declared code, and any
key matching no entry resolves to the sentinel `rcvUnknown`. -/
theorem c4_sorted_dispatch :
    ∀ t : List FieldTableEntry,
      t.Perm fieldTable →
      t.Chain' (fun e1 e2 => strcasecmp e1.varName e2.varName < 0) →
      (∀ e ∈ fieldTable, bsearch t e.varName = e.rde) ∧
      (∀ k : String, (∀ e ∈ fieldTable, strcasecmp k e.varName ≠ 0) →
        bsearch t k = rcvUnknown) := by
  intro t hperm hchain
  haveI : IsTrans FieldTableEntry
      (fun e1 e2 => natCmp (entryKey e1) (entryKey e2) < 0) :=
    ⟨fun a b c => natCmp_trans_neg _ _ _⟩
  have hchainN : t.Chain'
      (fun e1 e2 => natCmp (entryKey e1) (entryKey e2) < 0) := by
    refine List.Chain'.imp ?_ hchain
    intro a b h
    rwa [strcasecmp_eq_natCmp] at h
  have hsort := List.chain'_iff_pairwise.mp hchainN
  have hposT : ∀ e ∈ t, ∀ x ∈ entryKey e, 0 < x :=
    fun e he => fieldTable_keys_pos e (hperm.mem_iff.mp he)
  constructor
  · intro e he
    have heT : e ∈ t := hperm.mem_iff.mpr he
    obtain ⟨i, hi, hget⟩ := List.getElem_of_mem heT
    have hzero : natCmp (lowerOf e.varName) (entryKey t[i]) = 0 := by
      rw [hget]
      exact natCmp_self _
    have hrun := bsearchGo_finds t e.varName hsort
      (fieldTable_keys_pos e he) hposT i hi hzero
      t.length 0 t.length (by omega) (by omega) hi (Nat.le_refl _)
    rw [bsearch, hrun, hget]
  · intro k hk
    have habs : ∀ e ∈ t, strcasecmp k e.varName ≠ 0 :=
      fun e he => hk e (hperm.mem_iff.mp he)
    rw [bsearch]
    exact bsearchGo_not_found t k habs t.length 0 t.length
      (Nat.le_refl _) (Nat.le_refl _)

/-- The qsort comparator as a total preorder for the model sort. -/
def leEntry (e1 e2 : FieldTableEntry) : Prop :=
  strcasecmp e1.varName e2.varName ≤ 0

instance : DecidableRel leEntry := fun e1 e2 =>
  inferInstanceAs (Decidable (strcasecmp e1.varName e2.varName ≤ 0))

/-- One sorted permutation of the table, produced by a comparison sort
with the qsort comparator. -/
def sortedFieldTable : List FieldTableEntry :=
  fieldTable.insertionSort leEntry

/-- Executable check that adjacent table entries are strictly
increasing under the qsort comparator. -/
def chainLtB : List FieldTableEntry → Bool
  | [] => true
  | [_] => true
  | e1 :: e2 :: rest =>
      decide (strcasecmp e1.varName e2.varName < 0) && chainLtB (e2 :: rest)

theorem chainLtB_chain' :
    ∀ l : List FieldTableEntry, chainLtB l = true →
      l.Chain' (fun e1 e2 => strcasecmp e1.varName e2.varName < 0) := by
  intro l
  induction l with
  | nil => intro _; simp
  | cons e1 rest ih =>
      cases rest with
      | nil => intro _; simp
      | cons e2 rest2 =>
          intro h
          rw [chainLtB, Bool.and_eq_true] at h
          rw [List.chain'_cons]
          exact ⟨of_decide_eq_true h.1, ih h.2⟩

set_option maxHeartbeats 2000000 in
/-- C4 witness: the theorem applied to the concretely sorted table, a
declared pattern, and an unknown key. -/
theorem c4_sorted_dispatch_witness :
    bsearch sortedFieldTable "state:messageBox:mode" =
      rcvStateMessageBoxMode ∧
    bsearch sortedFieldTable "no:such:path" = rcvUnknown := by
  have h := c4_sorted_dispatch sortedFieldTable
    (List.perm_insertionSort leEntry fieldTable)
    (chainLtB_chain' sortedFieldTable (by decide))
  exact ⟨h.1 ⟨rcvStateMessageBoxMode, "state:messageBox:mode"⟩ (by decide),
    h.2 "no:such:path" (by decide)⟩
